import Mathlib

/-!
Shallow embedding of the AI-code-detection engine (`aiDetection.ts`) and the
GitHub repository analysis pipeline (`githubAnalyzer.ts`) of this repository.

Modelling conventions:
* JavaScript numbers are modelled as exact rationals (`ℚ`); all the constants
  involved (0.1, 0.2, ..., 0.95, percentages) are small decimals, and the
  claims under study are stated at the level of exact arithmetic.
* JavaScript regular expressions are transliterated into a small regex AST
  (`Rx`) together with a backtracking matcher (`mrun`) that reproduces the
  leftmost / priority-order match semantics of ECMAScript regexes, including
  greedy and lazy quantifiers, negative lookahead, word boundaries and the
  multiline `$`.  The matcher is fuel-indexed; the fuel bound chosen in
  `mrunFuel` dominates the recursion depth for the pattern sizes in the
  source, so on every input considered here it computes the same answer as an
  unbounded matcher.
* Crucially, the module-level pattern tables `AI_PATTERNS` and
  `LANGUAGE_PATTERNS` of the source consist of `RegExp` objects with the `g`
  flag, whose `lastIndex` is mutated by `RegExp.prototype.test`.  That state
  is threaded explicitly (`RxState`); `initState` is the state right after
  module load.  Regex literals that the source re-creates on every call
  (inside `analyzeCodeStructure` and `isCreativeHumanCode`) are stateless.
* Network effects are injected: the repository pipeline takes the gathered
  file list and a `fetch : String → Option String` function (`none` models a
  failed download, which the source catches).  Calls to the optional progress
  callback and the fetch/classification steps are recorded as an event trace
  (`REvent`) so that ordering claims can be stated.
-/

/-- JS `\s` (whitespace) character class, restricted to the code points that
can occur in the inputs considered here (the full ECMAScript class adds more
exotic Unicode spaces). -/
def jsWs (c : Char) : Bool :=
  c = ' ' || c = '\t' || c = '\n' || c = '\r' ||
  c = Char.ofNat 11 || c = Char.ofNat 12 || c = Char.ofNat 0xa0 ||
  c = Char.ofNat 0xfeff || c = Char.ofNat 0x2028 || c = Char.ofNat 0x2029

/-- JS `\w` character class: `[A-Za-z0-9_]`. -/
def isWordChar (c : Char) : Bool :=
  (('a' ≤ c && c ≤ 'z') || ('A' ≤ c && c ≤ 'Z') || ('0' ≤ c && c ≤ '9') || c = '_')

/-- ECMAScript line terminators (for the `.` class and multiline `$`). -/
def isLineTermCh (c : Char) : Bool :=
  c = '\n' || c = '\r' || c = Char.ofNat 0x2028 || c = Char.ofNat 0x2029

/-- JS `String.prototype.trim` (whitespace and line terminators stripped from
both ends), computed over the character list. -/
def jsTrim (s : String) : String :=
  String.mk (((s.toList.dropWhile jsWs).reverse.dropWhile jsWs).reverse)

/-- JS `String.prototype.split('\n')`: split at every newline, keeping empty
segments. -/
def splitNlList : List Char → List (List Char)
  | [] => [[]]
  | c :: cs =>
      match splitNlList cs with
      | [] => [[]]
      | h :: t => if c = '\n' then [] :: h :: t else (c :: h) :: t

/-- String-level wrapper for `splitNlList`. -/
def splitLines (s : String) : List String := (splitNlList s.toList).map String.mk

/-- JS `Array.prototype.join('\n')`. -/
def joinNl : List String → String
  | [] => ""
  | [s] => s
  | s :: rest => s ++ "\n" ++ joinNl rest

/-- ASCII lower-casing, as `String.prototype.toLowerCase` acts on the file
paths considered here. -/
def lowerStr (s : String) : String := String.mk (s.toList.map Char.toLower)

/-- Does list `s` start with list `t`? (JS `String.prototype.startsWith`.) -/
def listStartsWith [BEq α] : List α → List α → Bool
  | _, [] => true
  | [], _ :: _ => false
  | a :: as, b :: bs => a == b && listStartsWith as bs

/-- Does list `s` contain `t` as a contiguous sublist? (JS `includes`.) -/
def listContainsSub [BEq α] : List α → List α → Bool
  | s, t =>
      if listStartsWith s t then true
      else match s with
        | [] => false
        | _ :: as => listContainsSub as t

/-- JS `String.prototype.includes`. -/
def strContains (s t : String) : Bool := listContainsSub s.toList t.toList

/-- Regex AST.  `cls` is a character class given by a predicate; `star` is the
greedy Kleene star, `starL` the lazy one (`*?`); `bol` is `^` (no `m` flag: the
per-line inputs contain no newline, so line-start and string-start coincide);
`eolAbs` is `$` without the `m` flag, `eolM` is `$` with it; `wordB` is `\b`;
`nla` is negative lookahead `(?! )`. -/
inductive Rx where
  | eps
  | cls (p : Char → Bool)
  | cat (a b : Rx)
  | alt (a b : Rx)
  | star (a : Rx)
  | starL (a : Rx)
  | bol
  | eolAbs
  | eolM
  | wordB
  | nla (a : Rx)

/-- Literal character. -/
def chrR (c : Char) : Rx := Rx.cls (fun x => x = c)

/-- Case-insensitive literal character (for `i`-flagged patterns). -/
def ichrR (c : Char) : Rx := Rx.cls (fun x => x.toLower = c.toLower)

/-- Literal string. -/
def strR (cs : String) : Rx := (cs.toList.map chrR).foldr Rx.cat Rx.eps

/-- Case-insensitive literal string. -/
def istrR (cs : String) : Rx := (cs.toList.map ichrR).foldr Rx.cat Rx.eps

/-- Sequence of regexes. -/
def catsR (l : List Rx) : Rx := l.foldr Rx.cat Rx.eps

/-- Ordered alternation (tried left to right, as in ECMAScript). -/
def altsR : List Rx → Rx
  | [] => Rx.cls (fun _ => false)
  | [r] => r
  | r :: rs => Rx.alt r (altsR rs)

/-- `\s*` -/
def wsStar : Rx := Rx.star (Rx.cls jsWs)

/-- `\s+` -/
def wsPlus : Rx := Rx.cat (Rx.cls jsWs) wsStar

/-- `r+` -/
def plusR (r : Rx) : Rx := Rx.cat r (Rx.star r)

/-- `r{3,}` -/
def rep3R (r : Rx) : Rx := Rx.cat r (Rx.cat r (Rx.cat r (Rx.star r)))

/-- `.` (anything but a line terminator). -/
def dotR : Rx := Rx.cls (fun c => !(isLineTermCh c))

/-- `[\s\S]` (truly any character). -/
def anyR : Rx := Rx.cls (fun _ => true)

/-- `[^c]` -/
def negcR (c : Char) : Rx := Rx.cls (fun x => !(x = c))

/-- `\d` -/
def digitR : Rx := Rx.cls Char.isDigit

/-- `\w` -/
def wchR : Rx := Rx.cls isWordChar

/-- Node count of a regex, used only for the fuel bound. -/
def sizeRx : Rx → Nat
  | .eps => 1
  | .cls _ => 1
  | .cat a b => sizeRx a + sizeRx b + 1
  | .alt a b => sizeRx a + sizeRx b + 1
  | .star a => sizeRx a + 1
  | .starL a => sizeRx a + 1
  | .bol => 1
  | .eolAbs => 1
  | .eolM => 1
  | .wordB => 1
  | .nla a => sizeRx a + 1

/-- Is the character at index `i` a word character? -/
def wordCharAt (s : List Char) (i : Nat) : Bool :=
  match s.get? i with
  | some c => isWordChar c
  | none => false

/-- JS `\b`: boundary between a word character and a non-word character (or
either end of the input). -/
def atBoundary (s : List Char) (i : Nat) : Bool :=
  (match i with
   | 0 => false
   | j + 1 => wordCharAt s j) != wordCharAt s i

/-- Backtracking matcher in continuation style.  `mrun s fuel r i k` attempts
to match `r` at position `i` of `s`; on success the continuation `k` receives
the end position, and the first success in ECMAScript priority order wins.  A
quantifier iteration that consumes nothing fails (as in the ECMAScript
`RepeatMatcher`), so greedy/lazy stars terminate.  `fuel` only bounds the
recursion depth. -/
def mrun (s : List Char) : Nat → Rx → Nat → (Nat → Option Nat) → Option Nat
  | 0, _, _, _ => none
  | fuel + 1, r, i, k =>
      match r with
      | .eps => k i
      | .cls p =>
          match s.get? i with
          | some c => if p c then k (i + 1) else none
          | none => none
      | .cat a b => mrun s fuel a i (fun j => mrun s fuel b j k)
      | .alt a b => (mrun s fuel a i k).orElse (fun _ => mrun s fuel b i k)
      | .star a =>
          (mrun s fuel a i
            (fun j => if i < j then mrun s fuel (.star a) j k else none)).orElse
            (fun _ => k i)
      | .starL a =>
          (k i).orElse
            (fun _ => mrun s fuel a i
              (fun j => if i < j then mrun s fuel (.starL a) j k else none))
      | .bol => if i = 0 then k i else none
      | .eolAbs => if i = s.length then k i else none
      | .eolM =>
          if i = s.length then k i
          else
            match s.get? i with
            | some c => if isLineTermCh c then k i else none
            | none => none
      | .wordB => if atBoundary s i then k i else none
      | .nla a =>
          match mrun s fuel a i (fun j => some j) with
          | some _ => none
          | none => k i

/-- Fuel bound dominating the matcher's recursion depth for the source's
patterns (no pattern in the source nests a quantifier inside a quantifier over
more than a character class, so depth is linear in pattern size and input
length). -/
def mrunFuel (r : Rx) (s : List Char) : Nat := (sizeRx r + 4) * (2 * s.length + 8)

/-- Leftmost match search from position `i0` (the ECMAScript `exec` search
loop): try each start position in increasing order; return the end position of
the first (leftmost) match. -/
def rxFindAux (r : Rx) (s : List Char) : Nat → Nat → Option Nat
  | 0, _ => none
  | fuel + 1, i0 =>
      match mrun s (mrunFuel r s) r i0 some with
      | some e => some e
      | none => rxFindAux r s fuel (i0 + 1)

/-- Leftmost match end from `i0`, or `none`. -/
def rxFind (r : Rx) (s : List Char) (i0 : Nat) : Option Nat :=
  if i0 ≤ s.length then rxFindAux r s (s.length + 1 - i0) i0 else none

/-- `RegExp.prototype.test` for a pattern without the `g` flag (no state). -/
def rxTest (r : Rx) (s : String) : Bool := (rxFind r s.toList 0).isSome

/-- `RegExp.prototype.test` for a `g`-flagged pattern: the search starts at the
stored `lastIndex`; on success `lastIndex` becomes the match end, on failure it
resets to 0.  Returns (result, new lastIndex). -/
def jsTestG (r : Rx) (lastIndex : Nat) (s : String) : Bool × Nat :=
  match rxFind r s.toList lastIndex with
  | some e => (true, e)
  | none => (false, 0)

/-- Number of matches of `String.prototype.match` with a `g`-flagged pattern:
repeated leftmost search, continuing from each match end (all the counted
patterns in the source match at least one character). -/
def rxCountAux (r : Rx) (s : List Char) : Nat → Nat → Nat
  | 0, _ => 0
  | fuel + 1, i0 =>
      match rxFind r s i0 with
      | none => 0
      | some e => 1 + rxCountAux r s fuel (max e (i0 + 1))

/-- Match count of a global regex over a whole string. -/
def rxCount (r : Rx) (code : String) : Nat :=
  rxCountAux r code.toList (code.toList.length + 1) 0

/-- Per-line analysis record (`LineAnalysis` in `aiDetection.ts`). -/
structure LineAnalysis where
  content : String
  isAI : Bool
  confidence : ℚ
  reasons : List String
  deriving DecidableEq, Repr

/-- Whole-snippet analysis record (`AnalysisResult` in `aiDetection.ts`). -/
structure AnalysisResult where
  totalLines : Nat
  aiLines : Nat
  humanLines : Nat
  aiPercentage : ℚ
  humanPercentage : ℚ
  overallConfidence : ℚ
  lineAnalysis : List LineAnalysis
  deriving DecidableEq, Repr

/-- Detection rule (`DetectionPattern` in `aiDetection.ts`).  `global` records
whether the source regex literal carries the `g` flag (every entry of
`AI_PATTERNS` does except the shebang rule). -/
structure DetectionPattern where
  rx : Rx
  global : Bool
  weight : ℚ
  reason : String
  aiIndicator : Bool

/-- The fixed generic rule table `AI_PATTERNS`, in source order.  Each regex is
transliterated literally; `i`-flagged literals use case-insensitive atoms and
`m`-flagged `$` uses `eolM`. -/
def AI_PATTERNS : List DetectionPattern := [
  -- /\/\/\s*---\s*.*\s*---\s*$/gm
  { rx := catsR [strR ("//"), wsStar, strR ("---"), wsStar, Rx.star dotR, wsStar,
                 strR ("---"), wsStar, Rx.eolM],
    global := true, weight := 0.9,
    reason := "Section-based comments with dashes — signature of AI structure",
    aiIndicator := true },
  -- /\/\/\s*Generated with.*ChatGPT|\/\/.*AI Code Style Guide/gi
  { rx := Rx.alt
            (catsR [strR ("//"), wsStar, istrR ("Generated with"), Rx.star dotR,
                    istrR ("ChatGPT")])
            (catsR [strR ("//"), Rx.star dotR, istrR ("AI Code Style Guide")]),
    global := true, weight := 1.0,
    reason := "Explicit AI generation comment",
    aiIndicator := true },
  -- /\/\/\s*Step\s*\d+:|\/\/\s*\d+\./gi
  { rx := Rx.alt
            (catsR [strR ("//"), wsStar, istrR ("Step"), wsStar, plusR digitR, chrR (':')])
            (catsR [strR ("//"), wsStar, plusR digitR, chrR ('.')]),
    global := true, weight := 0.8,
    reason := "Contains step-by-step comments typical of AI explanations",
    aiIndicator := true },
  -- /\/\/\s*(Get|Parse|Check|Validate|Perform|Display|Calculate|Initialize|Handle|Process).*$/gm
  { rx := catsR [strR ("//"), wsStar,
                 altsR [strR ("Get"), strR ("Parse"), strR ("Check"), strR ("Validate"),
                        strR ("Perform"), strR ("Display"), strR ("Calculate"),
                        strR ("Initialize"), strR ("Handle"), strR ("Process")],
                 Rx.star dotR, Rx.eolM],
    global := true, weight := 0.6,
    reason := "Contains verbose explanatory comments typical of AI generation",
    aiIndicator := true },
  -- /(Usage:|Example:|Error:).*$/gm
  { rx := catsR [altsR [strR ("Usage:"), strR ("Example:"), strR ("Error:")],
                 Rx.star dotR, Rx.eolM],
    global := true, weight := 0.7,
    reason := "Contains structured error messages with examples",
    aiIndicator := true },
  -- /try\s*{[\s\S]*?catch\s*\([^)]*\)\s*{[\s\S]*?(console\.(error|log)|process\.exit)/g
  { rx := catsR [strR ("try"), wsStar, chrR ('{'), Rx.starL anyR,
                 strR ("catch"), wsStar, chrR ('('), Rx.star (negcR (')')), chrR (')'),
                 wsStar, chrR ('{'), Rx.starL anyR,
                 Rx.alt (catsR [strR ("console."), Rx.alt (strR ("error")) (strR ("log"))])
                        (strR ("process.exit"))],
    global := true, weight := 0.6,
    reason := "try/catch with console output in CLI context — typical ChatGPT pattern",
    aiIndicator := true },
  -- /(process\.exit\(1\)|isNaN\(|\.length\s*[!=]=|args\.length|Missing\s+(argument|parameter))/g
  { rx := altsR [strR ("process.exit(1)"), strR ("isNaN("),
                 catsR [strR (".length"), wsStar,
                        Rx.alt (chrR ('!')) (chrR ('=')), chrR ('=')],
                 strR ("args.length"),
                 catsR [strR ("Missing"), wsPlus,
                        Rx.alt (strR ("argument")) (strR ("parameter"))]],
    global := true, weight := 0.7,
    reason := "Contains comprehensive input validation typical of AI first-draft code",
    aiIndicator := true },
  -- /(Usage:\s*|Example:\s*|Please\s+(provide|ensure|check))/gi
  { rx := altsR [catsR [istrR ("Usage:"), wsStar],
                 catsR [istrR ("Example:"), wsStar],
                 catsR [istrR ("Please"), wsPlus,
                        altsR [istrR ("provide"), istrR ("ensure"), istrR ("check")]]],
    global := true, weight := 0.8,
    reason := "Polite, structured error messages with usage examples",
    aiIndicator := true },
  -- /\b(commandLineArguments|userInput|calculationResult|operatorSymbol)\b/gi
  { rx := catsR [Rx.wordB,
                 altsR [istrR ("commandLineArguments"), istrR ("userInput"),
                        istrR ("calculationResult"), istrR ("operatorSymbol")],
                 Rx.wordB],
    global := true, weight := 0.6,
    reason := "Uses overly descriptive variable names",
    aiIndicator := true },
  -- /switch\s*\([^)]+\)\s*{[\s\S]*default:\s*[\s\S]*}/g
  { rx := catsR [strR ("switch"), wsStar, chrR ('('), plusR (negcR (')')), chrR (')'),
                 wsStar, chrR ('{'), Rx.star anyR, strR ("default:"), wsStar,
                 Rx.star anyR, chrR ('}')],
    global := true, weight := 0.4,
    reason := "Contains comprehensive switch statement with default case",
    aiIndicator := true },
  -- /^#!/  (no flags: stateless)
  { rx := catsR [Rx.bol, strR ("#!")],
    global := false, weight := 0.3,
    reason := "Includes shebang line typical of AI-generated scripts",
    aiIndicator := true },
  -- /console\.log\((?!.*Result:|.*Error:|.*Usage:)/g
  { rx := catsR [strR ("console.log("),
                 Rx.nla (altsR [catsR [Rx.star dotR, strR ("Result:")],
                                catsR [Rx.star dotR, strR ("Error:")],
                                catsR [Rx.star dotR, strR ("Usage:")]])],
    global := true, weight := 0.6,
    reason := "Contains debug console.log statements",
    aiIndicator := false },
  -- /(TODO|FIXME|HACK|XXX):/gi
  { rx := catsR [altsR [istrR ("TODO"), istrR ("FIXME"), istrR ("HACK"), istrR ("XXX")],
                 chrR (':')],
    global := true, weight := 0.7,
    reason := "Contains TODO/FIXME comments indicating human planning",
    aiIndicator := false },
  -- /\/\/\s*[a-z][^.]*$/gm
  { rx := catsR [strR ("//"), wsStar, Rx.cls (fun c => 'a' ≤ c && c ≤ 'z'),
                 Rx.star (negcR ('.')), Rx.eolM],
    global := true, weight := 0.3,
    reason := "Contains short, terse comments typical of human code",
    aiIndicator := false },
  -- /\b(btn|txt|img|nav|auth|cfg|opts|params|ctx|req|res|db|api|temp|tmp|val|str|num|arr|obj)\b/gi
  { rx := catsR [Rx.wordB,
                 altsR [istrR ("btn"), istrR ("txt"), istrR ("img"), istrR ("nav"),
                        istrR ("auth"), istrR ("cfg"), istrR ("opts"), istrR ("params"),
                        istrR ("ctx"), istrR ("req"), istrR ("res"), istrR ("db"),
                        istrR ("api"), istrR ("temp"), istrR ("tmp"), istrR ("val"),
                        istrR ("str"), istrR ("num"), istrR ("arr"), istrR ("obj")],
                 Rx.wordB],
    global := true, weight := 0.4,
    reason := "Uses abbreviated variable names common in human code",
    aiIndicator := false },
  -- /\s{3,}(?!\s*\/\/)|[;}]\s*[;}]|\t\s+|\s+\t/g
  { rx := altsR [catsR [rep3R (Rx.cls jsWs), Rx.nla (catsR [wsStar, strR ("//")])],
                 catsR [Rx.cls (fun c => c = ';' || c = '}'), wsStar,
                        Rx.cls (fun c => c = ';' || c = '}')],
                 catsR [chrR ('\t'), wsPlus],
                 catsR [wsPlus, chrR ('\t')]],
    global := true, weight := 0.5,
    reason := "Has inconsistent spacing typical of human editing",
    aiIndicator := false },
  -- /\[[^\]]*\]\.map\(|\.filter\(|\.reduce\(/g
  { rx := altsR [catsR [chrR ('['), Rx.star (negcR (']')), chrR (']'), strR (".map(")],
                 strR (".filter("), strR (".reduce(")],
    global := true, weight := 0.2,
    reason := "Uses functional programming without extensive validation",
    aiIndicator := false }
]

/-- The language-specific rule tables `LANGUAGE_PATTERNS`; a language tag
without an entry contributes no rules (`|| []` in the source). -/
def LANGUAGE_PATTERNS (language : String) : List DetectionPattern :=
  if language == ("javascript") then [
    -- /console\.log\([^)]*\)/g
    { rx := catsR [strR ("console.log("), Rx.star (negcR (')')), chrR (')')],
      global := true, weight := 0.2,
      reason := "Contains debug console.log statements",
      aiIndicator := false },
    -- /function\s+\w+\s*\([^)]*\)\s*{/g
    { rx := catsR [strR ("function"), wsPlus, plusR wchR, wsStar, chrR ('('),
                   Rx.star (negcR (')')), chrR (')'), wsStar, chrR ('{')],
      global := true, weight := 0.1,
      reason := "Uses function declarations",
      aiIndicator := true }]
  else if language == ("python") then [
    -- /print\([^)]*\)/g
    { rx := catsR [strR ("print("), Rx.star (negcR (')')), chrR (')')],
      global := true, weight := 0.2,
      reason := "Contains debug print statements",
      aiIndicator := false },
    -- /def\s+\w+\s*\([^)]*\):/g
    { rx := catsR [strR ("def"), wsPlus, plusR wchR, wsStar, chrR ('('),
                   Rx.star (negcR (')')), chrR (')'), chrR (':')],
      global := true, weight := 0.1,
      reason := "Uses function definitions",
      aiIndicator := true }]
  else if language == ("typescript") then [
    -- /:\s*(string|number|boolean|any|unknown|void|never)\b/g
    { rx := catsR [chrR (':'), wsStar,
                   altsR [strR ("string"), strR ("number"), strR ("boolean"),
                          strR ("any"), strR ("unknown"), strR ("void"), strR ("never")],
                   Rx.wordB],
      global := true, weight := 0.2,
      reason := "Contains explicit type annotations",
      aiIndicator := true }]
  else []

/-- The mutable `lastIndex` state of the module-level `g`-flagged `RegExp`
objects: one index per entry of `AI_PATTERNS` and per entry of each
`LANGUAGE_PATTERNS` table. -/
structure RxState where
  gen : List Nat
  lang : String → List Nat

/-- Regex state right after module load (`lastIndex = 0` everywhere). -/
def initState : RxState :=
  { gen := List.replicate AI_PATTERNS.length 0,
    lang := fun l => List.replicate (LANGUAGE_PATTERNS l).length 0 }

/-- Run a rule table against a trimmed line, threading the per-rule
`lastIndex` list.  Returns (aiScore, humanScore, fired reasons in table order,
updated lastIndex list) — the two score accumulators and the `reasons.push`
calls of the loops in `analyzeLine`. -/
def runPatterns : List DetectionPattern → List Nat → String → ℚ × ℚ × List String × List Nat
  | [], _, _ => (0, 0, [], [])
  | p :: ps, st, content =>
      let li := st.headD 0
      let (matched, li') :=
        if p.global then jsTestG p.rx li content
        else ((rxFind p.rx content.toList 0).isSome, li)
      let (ai, hu, rs, st') := runPatterns ps st.tail content
      ((if matched && p.aiIndicator then p.weight else 0) + ai,
       (if matched && !p.aiIndicator then p.weight else 0) + hu,
       (if matched then [p.reason] else []) ++ rs,
       li' :: st')

/-- Structural punctuation class `[{}();,]` used by the short-line heuristic. -/
def structuralPunct (c : Char) : Bool :=
  c = '{' || c = '}' || c = '(' || c = ')' || c = ';' || c = ','

/-- Character class allowed by the "perfect syntax" heuristic: the complement
of the negated class `[^ \w \s \( \) \[ \] { } ; : , . < > ! @ # $ % ^ & * + =
| \\ ? / - ]` (spaces added here for readability). -/
def perfectSyntaxAllowed (c : Char) : Bool :=
  isWordChar c || jsWs c || (("()[]{};:,.<>!@#$%^&*+=|\\?/-").toList).contains c

/-- `/\b(foo|bar|baz|qux|quirky|magic|hack|wtf)\b/i` — the creative/quirky
naming heuristic of `analyzeLine`. -/
def creativeNamingRx : Rx :=
  catsR [Rx.wordB,
         altsR [istrR ("foo"), istrR ("bar"), istrR ("baz"), istrR ("qux"),
                istrR ("quirky"), istrR ("magic"), istrR ("hack"), istrR ("wtf")],
         Rx.wordB]

/-- `/^\s*([\{\}\[\](),;]|\w+:\s*)/` — the "perfectly aligned structure"
line shape of `analyzeCodeStructure`. -/
def alignedRx : Rx :=
  catsR [Rx.bol, wsStar,
         Rx.alt (Rx.cls (fun c => c = '{' || c = '}' || c = '[' || c = ']' ||
                                  c = '(' || c = ')' || c = ',' || c = ';'))
                (catsR [plusR wchR, chrR (':'), wsStar])]

/-- The four "messy" patterns of `analyzeCodeStructure` (regex literals,
re-created per call, hence stateless). -/
def messyPatterns : List Rx :=
  [strR ("console.log("),
   altsR [strR ("TODO"), strR ("FIXME"), strR ("HACK")],
   catsR [rep3R (Rx.cls jsWs), Rx.nla (catsR [wsStar, strR ("//")])],
   catsR [Rx.cls (fun c => c = ';' || c = '}'), wsStar,
          Rx.cls (fun c => c = ';' || c = '}')]]

/-- `/\/\*[\s\S]*?\*\/|\/\/.*$/gm` — comment match pattern (counted over the
whole file). -/
def commentRx : Rx :=
  Rx.alt (catsR [strR ("/*"), Rx.starL anyR, strR ("*/")])
         (catsR [strR ("//"), Rx.star dotR, Rx.eolM])

/-- `/(try|catch|throw|Error|Exception)/g` — error-handling token count. -/
def errTokensRx : Rx :=
  altsR [strR ("try"), strR ("catch"), strR ("throw"), strR ("Error"), strR ("Exception")]

/-- `/(isNaN|\.length|args\.length|Missing.*argument)/g` — validation token
count. -/
def valTokensRx : Rx :=
  altsR [strR ("isNaN"), strR (".length"), strR ("args.length"),
         catsR [strR ("Missing"), Rx.star dotR, strR ("argument")]]

/-- `/(args\.length|Missing.*argument|isNaN|process\.exit)/` — defensive
preamble check on the first 20 lines. -/
def earlyRx : Rx :=
  altsR [strR ("args.length"), catsR [strR ("Missing"), Rx.star dotR, strR ("argument")],
         strR ("isNaN"), strR ("process.exit")]

/-- Leading whitespace of a line (`line.match(/^\s*/)?.[0] || ''`). -/
def indentOf (l : String) : List Char := l.toList.takeWhile jsWs

/-- The indentation-consistency loop of `analyzeCodeStructure`: fold over the
indents carrying the first non-empty indent seen (`indentPattern`) and the
count of consistent lines. -/
def indentFold : List (List Char) → List Char × Nat → List Char × Nat
  | [], st => st
  | ind :: rest, (pat, cnt) =>
      let pat' := if pat.isEmpty && !ind.isEmpty then ind else pat
      let ok := ind == pat' || ind.isEmpty || listStartsWith ind pat'
      indentFold rest (pat', if ok then cnt + 1 else cnt)

/-- `analyzeCodeStructure`: whole-file AI-shape score in `[0,1]`.  Divisions
where the source would produce `NaN` (no non-blank lines) yield `0` here; in
that case no pattern can have matched either, so the guarded comparisons agree
with the source. -/
def analyzeCodeStructure (code : String) : ℚ :=
  let lines := (splitLines code).filter (fun l => !(jsTrim l == ("")))
  let consistentIndentation := (indentFold (lines.map (fun l => indentOf l)) ([], 0)).2
  let perfectlyAlignedLines := lines.countP (fun l => rxTest alignedRx l)
  let s1 : ℚ := if (consistentIndentation : ℚ) / (lines.length : ℚ) > 0.9 then 0.3 else 0
  let s2 : ℚ := if (perfectlyAlignedLines : ℚ) / (lines.length : ℚ) > 0.4 then 0.2 else 0
  let messyLines := lines.countP (fun l => messyPatterns.any (fun r => rxTest r l))
  let s3 : ℚ := if messyLines = 0 && lines.length > 10 then 0.15 else 0
  let commentLines := rxCount commentRx code
  let s4 : ℚ := if (commentLines : ℚ) / (lines.length : ℚ) > 0.3 then 0.2 else 0
  let errorHandlingCount := rxCount errTokensRx code
  let validationCount := rxCount valTokensRx code
  let s5 : ℚ := if ((errorHandlingCount : ℚ) + (validationCount : ℚ)) >
                   (lines.length : ℚ) * 0.1 then 0.25 else 0
  let earlyLines := joinNl (lines.take (min 20 lines.length))
  let s6 : ℚ := if rxTest earlyRx earlyLines then 0.2 else 0
  min (s1 + s2 + s3 + s4 + s5 + s6) 1

/-- Clamp to `[lo, hi]` (`Math.min(Math.max(x, lo), hi)`). -/
def clampQ (x lo hi : ℚ) : ℚ := min (max x lo) hi

/-- `analyzeLine`: classify one raw line.  The `lineNumber` parameter is
informational only (unused, as in the source).  Returns the verdict and the
updated regex state. -/
def analyzeLine (st : RxState) (line : String) (lineNumber : Nat) (language : String) :
    LineAnalysis × RxState :=
  let content := jsTrim line
  if content == ("") then
    ({ content := line, isAI := false, confidence := 0.5,
       reasons := [("Empty line - neutral")] }, st)
  else
    let rg := runPatterns AI_PATTERNS st.gen content
    let aiG := rg.1
    let huG := rg.2.1
    let rsG := rg.2.2.1
    let gen' := rg.2.2.2
    let rl := runPatterns (LANGUAGE_PATTERNS language) (st.lang language) content
    let aiL := rl.1
    let huL := rl.2.1
    let rsL := rl.2.2.1
    let lang' := rl.2.2.2
    let ai0 := aiG + aiL
    let hu0 := huG + huL
    let longLine := content.length > 120
    let shortLine := content.length < 20 && !(content.toList.any structuralPunct)
    let ai1 := if longLine then ai0 + 0.2 else ai0
    let hu1 := if !longLine && shortLine then hu0 + 0.1 else hu0
    let rs1 : List String :=
      if longLine then [("Very long line length typical of AI generation")]
      else if shortLine then [("Short, concise line suggests human writing")]
      else []
    let perfect := (content.toList.all perfectSyntaxAllowed) && content.length > 30
    let ai2 := if perfect then ai1 + 0.1 else ai1
    let rs2 : List String := if perfect then [("Perfect syntax and structure")] else []
    let creative := rxTest creativeNamingRx content
    let hu3 := if creative then hu1 + 0.3 else hu1
    let rs3 : List String :=
      if creative then [("Uses creative or placeholder naming typical of humans")] else []
    let totalScore := ai2 + hu3
    let confidence0 : ℚ := if totalScore > 0 then max ai2 hu3 / totalScore else 0.5
    let confidence := clampQ confidence0 0.1 0.95
    let reasons0 := rsG ++ rsL ++ rs1 ++ rs2 ++ rs3
    let reasons :=
      if reasons0.isEmpty then [("No significant patterns detected - neutral classification")]
      else reasons0
    let _ := lineNumber
    ({ content := line, isAI := ai2 > hu3, confidence := confidence, reasons := reasons },
     { gen := gen', lang := fun l => if l == language then lang' else st.lang l })

/-- `isCreativeHumanCode`: the creative/human-signature exemption used by the
contextual smoother.  Its regex literals are re-created on every call, so they
carry no state even when `g`-flagged. -/
def isCreativeHumanCode (line : String) : Bool :=
  let content := jsTrim line
  let creativePatterns : List Rx :=
    [catsR [altsR [istrR ("TODO"), istrR ("FIXME"), istrR ("HACK"), istrR ("XXX"),
                   istrR ("NOTE")], chrR (':')],
     catsR [Rx.wordB,
            altsR [istrR ("foo"), istrR ("bar"), istrR ("baz"), istrR ("qux"),
                   istrR ("quirky"), istrR ("magic"), istrR ("hack"), istrR ("wtf"),
                   istrR ("temp"), istrR ("tmp")],
            Rx.wordB],
     catsR [strR ("console.log("),
            Rx.nla (altsR [catsR [Rx.star dotR, strR ("Result:")],
                           catsR [Rx.star dotR, strR ("Error:")],
                           catsR [Rx.star dotR, strR ("Usage:")]])],
     catsR [strR ("//"), wsStar,
            altsR [istrR ("FIXME"), istrR ("TODO"), istrR ("HACK"), istrR ("NOTE")]],
     catsR [strR ("//"), wsStar, Rx.cls (fun c => 'a' ≤ c && c ≤ 'z'),
            Rx.star (Rx.cls (fun c => !(c = '.' || ('A' ≤ c && c ≤ 'Z')))), Rx.eolAbs],
     altsR [strR ("???"), strR ("!!!"), catsR [strR ("..."), Rx.eolAbs]],
     catsR [strR ("//"), wsStar,
            altsR [istrR ("lol"), istrR ("wtf"), istrR ("omg"), istrR ("meh"), istrR ("ugh")]]]
  creativePatterns.any (fun r => rxTest r content)

/-- Rationale string appended by the sandwich rule. -/
def sandwichMsg : String := "Line sandwiched between AI-generated code blocks"

/-- Rationale string appended by the block-extension rule. -/
def blockMsg : String := "Part of extended AI-generated code block"

/-- One iteration of the sandwich loop of `applyContextualAnalysis` at index
`i` (the source mutates `lineAnalysis[i]` in place; here the updated list is
returned). -/
def sandwichStep (acc : List LineAnalysis) (i : Nat) : List LineAnalysis :=
  match acc.get? i, acc.get? (i - 1), acc.get? (i + 1) with
  | some cur, some prev, some next =>
      if jsTrim cur.content == ("") then acc
      else if !cur.isAI && prev.isAI && next.isAI then
        if !(isCreativeHumanCode cur.content) then
          acc.set i { cur with isAI := true,
                               confidence := max cur.confidence 0.7,
                               reasons := cur.reasons ++ [sandwichMsg] }
        else acc
      else acc
  | _, _, _ => acc

/-- Pass 1 of `applyContextualAnalysis`: `for (let i = 1; i < n - 1; i++)`. -/
def sandwichPass (ls : List LineAnalysis) : List LineAnalysis :=
  (List.range' 1 (ls.length - 2)).foldl sandwichStep ls

/-- The look-ahead of the block-extension rule: does any of the next two lines
(within bounds) have non-blank content and an AI verdict? -/
def blockLookahead (acc : List LineAnalysis) (i : Nat) : Bool :=
  ((List.range' (i + 1) 2).filter (fun j => j < acc.length)).any
    (fun j =>
      match acc.get? j with
      | some l => !(jsTrim l.content == ("")) && l.isAI
      | none => false)

/-- One iteration of the block-extension loop at index `i`, carrying the
`consecutiveAICount` counter. -/
def blockStep (st : List LineAnalysis × Nat) (i : Nat) : List LineAnalysis × Nat :=
  match st.1.get? i with
  | none => st
  | some line =>
      if jsTrim line.content == ("") then (st.1, 0)
      else if line.isAI then (st.1, st.2 + 1)
      else
        if st.2 ≥ 3 && !(isCreativeHumanCode line.content) then
          if blockLookahead st.1 i then
            (st.1.set i { line with isAI := true,
                                    confidence := max line.confidence 0.6,
                                    reasons := line.reasons ++ [blockMsg] }, 0)
          else (st.1, 0)
        else (st.1, 0)

/-- Pass 2 of `applyContextualAnalysis`: the block-extension scan. -/
def blockPass (ls : List LineAnalysis) : List LineAnalysis :=
  ((List.range ls.length).foldl blockStep (ls, 0)).1

/-- `applyContextualAnalysis`: sandwich pass, then block-extension pass (the
source mutates the array; flips of pass 1 are visible to pass 2). -/
def applyContextualAnalysis (ls : List LineAnalysis) : List LineAnalysis :=
  blockPass (sandwichPass ls)

/-- The per-line loop of `analyzeCode`: classify each line (1-based line
numbers), then nudge the confidence of AI-classified lines when the structural
score exceeds 0.5. -/
def analyzeLinesGo (language : String) (structureScore : ℚ) :
    List String → Nat → RxState → List LineAnalysis × RxState
  | [], _, st => ([], st)
  | l :: rest, i, st =>
      let ar := analyzeLine st l (i + 1) language
      let la := ar.1
      let la2 :=
        if structureScore > 0.5 then
          (if la.isAI then { la with confidence := min (la.confidence + 0.1) 0.95 } else la)
        else la
      let r := analyzeLinesGo language structureScore rest (i + 1) ar.2
      (la2 :: r.1, r.2)

/-- The non-blank verdicts of a verdict sequence (`nonEmptyLines`). -/
def nonEmptyOf (la : List LineAnalysis) : List LineAnalysis :=
  la.filter (fun l => !(jsTrim l.content == ("")))

/-- The statistics block of `analyzeCode`, computed from the final (smoothed)
verdict sequence: counts and percentages over the non-blank verdicts, and the
unweighted mean confidence (0.5 when there is no non-blank line). -/
def analysisResultOf (la : List LineAnalysis) : AnalysisResult :=
  { totalLines := (nonEmptyOf la).length,
    aiLines := ((nonEmptyOf la).filter (fun l => l.isAI)).length,
    humanLines := (nonEmptyOf la).length - ((nonEmptyOf la).filter (fun l => l.isAI)).length,
    aiPercentage :=
      if (nonEmptyOf la).length > 0 then
        ((((nonEmptyOf la).filter (fun l => l.isAI)).length : ℚ) /
          ((nonEmptyOf la).length : ℚ)) * 100
      else 0,
    humanPercentage :=
      if (nonEmptyOf la).length > 0 then
        ((((nonEmptyOf la).length - ((nonEmptyOf la).filter (fun l => l.isAI)).length : Nat) : ℚ) /
          ((nonEmptyOf la).length : ℚ)) * 100
      else 0,
    overallConfidence :=
      if (nonEmptyOf la).length > 0 then
        (((nonEmptyOf la).map (fun l => l.confidence)).sum) / ((nonEmptyOf la).length : ℚ)
      else 0.5,
    lineAnalysis := la }

/-- `analyzeCode`: the full classification pipeline for one text — structural
score, per-line classification (with nudge), contextual smoothing, and
statistics.  The artificial processing delay of the source is timing-only and
has no effect on the result.  Threads the module-level regex state. -/
def analyzeCode (st : RxState) (code : String) (language : String) :
    AnalysisResult × RxState :=
  (analysisResultOf (applyContextualAnalysis
      (analyzeLinesGo language (analyzeCodeStructure code) (splitLines code) 0 st).1),
   (analyzeLinesGo language (analyzeCodeStructure code) (splitLines code) 0 st).2)

/-- One gathered remote file handle (`GitHubFile` in `githubAnalyzer.ts`).
`kind` is `"file"` or `"dir"` (the gathered list only contains files). -/
structure GitHubFile where
  name : String
  path : String
  kind : String
  download_url : Option String
  size : Nat
  deriving DecidableEq, Repr

/-- Per-file analysis record (`FileAnalysis`). -/
structure FileAnalysis where
  path : String
  language : String
  analysis : AnalysisResult
  size : Nat
  deriving DecidableEq, Repr

/-- The aggregate statistics block (`overallStats`). -/
structure OverallStats where
  totalLines : Nat
  aiLines : Nat
  humanLines : Nat
  aiPercentage : ℚ
  humanPercentage : ℚ
  overallConfidence : ℚ
  deriving DecidableEq, Repr

/-- Repository-level result (`RepositoryAnalysis`). -/
structure RepositoryAnalysis where
  repositoryUrl : String
  totalFiles : Nat
  analyzedFiles : Nat
  files : List FileAnalysis
  isLovableGenerated : Bool
  lovableIndicators : List String
  overallStats : OverallStats
  deriving DecidableEq, Repr

/-- Externally observable events of the repository pipeline: a call to the
progress callback (when one is supplied), the completion of a file download
(`ok = false` models the caught fetch failure), and the completion of a file's
classification. -/
inductive REvent where
  | progress (current : Nat) (total : Nat) (currentFile : String)
  | fetched (path : String) (ok : Bool)
  | classified (path : String)
  deriving DecidableEq, Repr

/-- The fixed extension-to-language table `LANGUAGE_MAP`. -/
def LANGUAGE_MAP : List (String × String) :=
  [(".js", "javascript"), (".jsx", "jsx"), (".ts", "typescript"), (".tsx", "tsx"),
   (".py", "python"), (".java", "java"), (".cpp", "cpp"), (".cc", "cpp"),
   (".cxx", "cpp"), (".c++", "cpp"), (".cs", "csharp"), (".go", "go"),
   (".rs", "rust"), (".php", "php"), (".rb", "ruby"), (".swift", "swift"),
   (".kt", "kotlin"), (".scala", "scala"), (".sh", "bash"), (".sql", "sql"),
   (".html", "html"), (".css", "css"), (".scss", "scss"), (".sass", "sass"),
   (".json", "json"), (".yaml", "yaml"), (".yml", "yaml"), (".xml", "xml"),
   (".md", "markdown")]

/-- Suffix of the character list starting at its last `.`
(the match of `/\.[^.]*$/`), or `none` when there is no dot. -/
def lastExtAux : List Char → Option (List Char)
  | [] => none
  | c :: cs =>
      match lastExtAux cs with
      | some e => some e
      | none => if c = '.' then some (c :: cs) else none

/-- `filePath.toLowerCase().match(/\.[^.]*$/)?.[0]`. -/
def lastExt (s : String) : Option String := (lastExtAux s.toList).map String.mk

/-- `getLanguageFromPath`. -/
def getLanguageFromPath (filePath : String) : String :=
  match lastExt (lowerStr filePath) with
  | none => "text"
  | some ext =>
      match LANGUAGE_MAP.find? (fun p => p.1 == ext) with
      | some p => p.2
      | none => "text"

/-- The recognised code extension list of `shouldAnalyzeFile`. -/
def codeExtensions : List String :=
  [".js", ".jsx", ".ts", ".tsx", ".py", ".java", ".cpp", ".cc", ".cxx", ".c++",
   ".cs", ".go", ".rs", ".php", ".rb", ".swift", ".kt", ".scala", ".vue", ".svelte"]

/-- `/\/(main|index)\.(js|ts|jsx|tsx)$/` — conventional entry-point files. -/
def mainIndexRx : Rx :=
  catsR [chrR ('/'), Rx.alt (strR ("main")) (strR ("index")), chrR ('.'),
         altsR [strR ("js"), strR ("ts"), strR ("jsx"), strR ("tsx")], Rx.eolAbs]

/-- `/App\.(js|ts|jsx|tsx)$/` — conventional App files. -/
def appFileRx : Rx :=
  catsR [strR ("App."), altsR [strR ("js"), strR ("ts"), strR ("jsx"), strR ("tsx")],
         Rx.eolAbs]

/-- `/\/components\/ui\//` — framework UI component paths (shadcn/ui etc.). -/
def uiComponentsRx : Rx := strR ("/components/ui/")

/-- The ordered `excludePatterns` table of `shouldAnalyzeFile`. -/
def excludePatterns : List Rx :=
  [uiComponentsRx,
   strR ("/ui/"),
   strR (".shadcn/"),
   strR ("node_modules/"),
   strR ("dist/"),
   strR ("build/"),
   strR (".next/"),
   strR (".nuxt/"),
   strR ("coverage/"),
   strR (".generated."),
   strR (".gen."),
   catsR [strR (".d.ts"), Rx.eolAbs],
   catsR [strR ("types.ts"), Rx.eolAbs],
   catsR [strR ("index.d.ts"), Rx.eolAbs],
   strR ("tailwind.config."),
   strR ("vite.config."),
   strR ("webpack.config."),
   strR ("next.config."),
   strR ("nuxt.config."),
   strR ("rollup.config."),
   strR ("babel.config."),
   strR ("jest.config."),
   strR ("vitest.config."),
   strR ("postcss.config."),
   strR ("eslint.config."),
   strR ("prettier.config."),
   catsR [strR ("package.json"), Rx.eolAbs],
   catsR [strR ("package-lock.json"), Rx.eolAbs],
   catsR [strR ("yarn.lock"), Rx.eolAbs],
   catsR [strR ("pnpm-lock.yaml"), Rx.eolAbs],
   catsR [strR ("bun.lockb"), Rx.eolAbs],
   mainIndexRx,
   appFileRx,
   catsR [chrR ('.'), Rx.alt (strR ("test")) (strR ("spec")), chrR ('.'),
          altsR [strR ("js"), strR ("ts"), strR ("jsx"), strR ("tsx")], Rx.eolAbs],
   strR ("__tests__/"),
   strR (".test/"),
   catsR [strR (".md"), Rx.eolAbs],
   catsR [strR (".mdx"), Rx.eolAbs],
   strR ("/."),
   strR (".git/"),
   strR (".vscode/"),
   strR (".idea/")]

/-- `shouldAnalyzeFile`: the analyzability filter on a file path. -/
def shouldAnalyzeFile (filePath : String) : Bool :=
  match lastExt (lowerStr filePath) with
  | none => false
  | some ext =>
      if !(codeExtensions.contains ext) then false
      else if excludePatterns.any (fun r => rxTest r filePath) then false
      else if strContains filePath ("src/") &&
              (rxTest mainIndexRx filePath || rxTest appFileRx filePath) then false
      else true

/-- Accumulators of the per-file analysis loop of `analyzeGitHubRepository`
(its local mutable variables, plus the threaded module regex state). -/
structure LoopAcc where
  fileAnalyses : List FileAnalysis
  totalLines : Nat
  totalAiLines : Nat
  totalHumanLines : Nat
  totalConfidence : ℚ
  analyzedCount : Nat
  st : RxState

/-- Initial loop accumulators (regex state as of module load). -/
def initAcc : LoopAcc :=
  { fileAnalyses := [], totalLines := 0, totalAiLines := 0, totalHumanLines := 0,
    totalConfidence := 0, analyzedCount := 0, st := initState }

/-- Events produced while processing one file, after the progress call: fetch
outcome, then (when the content is non-blank and classification runs) the
classification event. -/
def fileTailEvents (fetch : String → Option String) (f : GitHubFile) : List REvent :=
  match fetch (f.download_url.getD ("")) with
  | none => [REvent.fetched f.path false]
  | some content =>
      if jsTrim content == ("") then [REvent.fetched f.path true]
      else [REvent.fetched f.path true, REvent.classified f.path]

/-- One iteration of the per-file loop: report progress `(i+1, total, path)`,
then fetch; a failed fetch is caught and skipped; empty content is skipped;
otherwise classify and accumulate. -/
def processFile (fetch : String → Option String) (total i : Nat) (f : GitHubFile)
    (acc : LoopAcc) : List REvent × LoopAcc :=
  let ev0 := REvent.progress (i + 1) total f.path
  match fetch (f.download_url.getD ("")) with
  | none => ([ev0, REvent.fetched f.path false], acc)
  | some content =>
      if jsTrim content == ("") then ([ev0, REvent.fetched f.path true], acc)
      else
        let language := getLanguageFromPath f.path
        let ar := analyzeCode acc.st content language
        let analysis := ar.1
        ([ev0, REvent.fetched f.path true, REvent.classified f.path],
         { fileAnalyses := acc.fileAnalyses ++
             [{ path := f.path, language := language, analysis := analysis, size := f.size }],
           totalLines := acc.totalLines + analysis.totalLines,
           totalAiLines := acc.totalAiLines + analysis.aiLines,
           totalHumanLines := acc.totalHumanLines + analysis.humanLines,
           totalConfidence := acc.totalConfidence + analysis.overallConfidence,
           analyzedCount := acc.analyzedCount + 1,
           st := ar.2 })

/-- The sequential per-file loop (`for (let i = 0; ...)`), emitting the event
trace in order. -/
def loopGo (fetch : String → Option String) (total : Nat) :
    List GitHubFile → Nat → LoopAcc → List REvent × LoopAcc
  | [], _, acc => ([], acc)
  | f :: fs, i, acc =>
      let p := processFile fetch total i f acc
      let r := loopGo fetch total fs (i + 1) p.2
      (p.1 ++ r.1, r.2)

/-- The analyzability filter applied to the gathered list (`allFiles.filter`):
`shouldAnalyzeFile(path) && size && size < 1 MiB && download_url`. -/
def analyzeableFilter (f : GitHubFile) : Bool :=
  shouldAnalyzeFile f.path && !(f.size == 0) && f.size < 1024 * 1024 && f.download_url.isSome

/-- The error message thrown when the filter yields no files. -/
def noAnalyzableMsg : String := "No analyzeable code files found in this repository"

/-- The two progress reports issued before the per-file loop ("Fetching
repository structure..." at line 398 and "Fetching repository metadata..." at
line 406 of the source). -/
def initRepoEvents : List REvent :=
  [REvent.progress 0 1 ("Fetching repository structure..."),
   REvent.progress 0 1 ("Fetching repository metadata...")]

/-- The `overallStats` object assembled from the loop accumulators. -/
def repoOverallStats (acc : LoopAcc) : OverallStats :=
  { totalLines := acc.totalLines,
    aiLines := acc.totalAiLines,
    humanLines := acc.totalHumanLines,
    aiPercentage :=
      if acc.totalLines > 0 then ((acc.totalAiLines : ℚ) / (acc.totalLines : ℚ)) * 100
      else 0,
    humanPercentage :=
      if acc.totalLines > 0 then ((acc.totalHumanLines : ℚ) / (acc.totalLines : ℚ)) * 100
      else 0,
    overallConfidence :=
      if acc.analyzedCount > 0 then acc.totalConfidence / (acc.analyzedCount : ℚ)
      else 0 }

/-- `analyzeGitHubRepository`, with network effects injected: `allFiles` is
the list gathered by `getAllFiles`, `fetch` the raw-content download
(`none` = failure, caught per file), and `lovableResult` the outcome of
`detectLovableGeneration` (computed from injected metadata/commit data and
independent of the statistics and events modelled here).  URL parsing is the
trivial regex extraction excluded by the specification.  Returns the result
(or the thrown error message) together with the event trace. -/
def analyzeGitHubRepository (allFiles : List GitHubFile)
    (fetch : String → Option String) (repositoryUrl : String)
    (lovableResult : Bool × List String) :
    Except String RepositoryAnalysis × List REvent :=
  if (allFiles.filter analyzeableFilter).length = 0 then
    (Except.error noAnalyzableMsg, initRepoEvents)
  else
    (Except.ok
      { repositoryUrl := repositoryUrl,
        totalFiles := allFiles.length,
        analyzedFiles := (loopGo fetch (allFiles.filter analyzeableFilter).length
          (allFiles.filter analyzeableFilter) 0 initAcc).2.fileAnalyses.length,
        files := (loopGo fetch (allFiles.filter analyzeableFilter).length
          (allFiles.filter analyzeableFilter) 0 initAcc).2.fileAnalyses,
        isLovableGenerated := lovableResult.1,
        lovableIndicators := lovableResult.2,
        overallStats := repoOverallStats (loopGo fetch
          (allFiles.filter analyzeableFilter).length
          (allFiles.filter analyzeableFilter) 0 initAcc).2 },
     initRepoEvents ++ (loopGo fetch (allFiles.filter analyzeableFilter).length
       (allFiles.filter analyzeableFilter) 0 initAcc).1)

/-! Concrete scenario inputs used by the claim theorems below. -/

/-- The three-line sandwich scenario of the specification. -/
def sandwichScenario : String := "const a = 1;\nfoo_bar_hack();\nconst b = 2;"

/-- A line on which only the TODO/FIXME rule and the short-line heuristic
fire. -/
def todoLine : String := "TODO: x"

/-- First classification of `todoLine` starting from the module-load regex
state. -/
def todoRun1 : AnalysisResult × RxState := analyzeCode initState todoLine ("text")

/-- Second classification of the same text, in the regex state left behind by
the first one. -/
def todoRun2 : AnalysisResult × RxState := analyzeCode todoRun1.2 todoLine ("text")

/-- An analyzable repository file (passes the analyzability filter). -/
def cxFile : GitHubFile :=
  { name := "a.ts", path := "src/utils/a.ts", kind := "file",
    download_url := some ("u"), size := 10 }

/-- A gathered file that fails the analyzability filter (documentation). -/
def readmeFile : GitHubFile :=
  { name := "README.md", path := "README.md", kind := "file",
    download_url := some ("r"), size := 10 }

/-- A line that classifies as AI on its own (step-comment rule). -/
def exA1 : LineAnalysis :=
  { content := "// Step 1: a", isAI := true, confidence := 8/9, reasons := [] }

/-- A second AI-classified line. -/
def exA2 : LineAnalysis :=
  { content := "// Step 2: b", isAI := true, confidence := 8/9, reasons := [] }

/-- A blank line verdict. -/
def exBlank : LineAnalysis :=
  { content := "", isAI := false, confidence := 0.5, reasons := [] }

/-- A human-classified, non-creative line. -/
def exH : LineAnalysis :=
  { content := "x = 1", isAI := false, confidence := 0.95, reasons := [] }

/-- Is the line verdict at index `j` present and AI-classified? -/
def aiAt (acc : List LineAnalysis) (j : Nat) : Bool :=
  match acc.get? j with
  | some a => a.isAI
  | none => false

/-- Evolution relation of one line verdict under the contextual smoother:
content unchanged, confidence never lowered, the AI flag only ever turned on,
rationales only appended. -/
def lineEvolves (a b : LineAnalysis) : Prop :=
  b.content = a.content ∧ a.confidence ≤ b.confidence ∧
  (a.isAI = true → b.isAI = true) ∧ ∃ t, b.reasons = a.reasons ++ t

/-- Range/confidence invariant of one line verdict: blank lines carry the
neutral verdict, non-blank lines a confidence clamped to `[0.1, 0.95]`. -/
def confOk (l : LineAnalysis) : Prop :=
  (jsTrim l.content = "" → l.confidence = 0.5 ∧ l.isAI = false) ∧
  (jsTrim l.content ≠ "" → 0.1 ≤ l.confidence ∧ l.confidence ≤ 0.95)

/-- The result of analysing the one-file repository `[cxFile]` when the file's
download fails: one file seen, none analysed, all statistics zero — in
particular `overallConfidence = 0`, not `0.5`. -/
def cxFailedRepo : RepositoryAnalysis :=
  { repositoryUrl := "u", totalFiles := 1, analyzedFiles := 0, files := [],
    isLovableGenerated := false, lovableIndicators := [],
    overallStats := { totalLines := 0, aiLines := 0, humanLines := 0,
                      aiPercentage := 0, humanPercentage := 0,
                      overallConfidence := 0 } }

/-- The verdict that the pipeline produces for the one-line snippet `"a"`
with language tag `"text"` (used by witnesses below). -/
def wLine8 : LineAnalysis :=
  { content := "a", isAI := false, confidence := 0.95,
    reasons := [("Short, concise line suggests human writing")] }

/-! ### List helper lemmas -/

theorem get?_set_self {α : Type} (l : List α) (i : Nat) (a : α) (h : i < l.length) :
    (l.set i a).get? i = some a := by
  induction l generalizing i with
  | nil => simp at h
  | cons x xs ih =>
    cases i with
    | zero => rfl
    | succ i' => simpa using ih i' (by simpa using h)

theorem get?_set_other {α : Type} (l : List α) (i j : Nat) (a : α) (h : ¬ i = j) :
    (l.set i a).get? j = l.get? j := by
  induction l generalizing i j with
  | nil => rfl
  | cons x xs ih =>
    cases i with
    | zero =>
      cases j with
      | zero => exact absurd rfl h
      | succ j' => rfl
    | succ i' =>
      cases j with
      | zero => rfl
      | succ j' => simpa using ih i' j' (fun hh => h (by rw [hh]))

/-! ### Claim C9 — the analyzability filter on the four scenario paths -/

/-- Claim C9: of `src/components/ui/button.tsx`, `src/index.ts`, `README.md`
and `src/utils/helpers.ts`, the analyzability filter accepts exactly
`src/utils/helpers.ts`; `button.tsx` already matches the framework-UI-component
path pattern, `index.ts` the conventional entry-point pattern, and `README.md`
has extension `.md`, which is not a recognised code extension. -/
theorem claim_C9_filter_scenario :
    shouldAnalyzeFile ("src/components/ui/button.tsx") = false ∧
    shouldAnalyzeFile ("src/index.ts") = false ∧
    shouldAnalyzeFile ("README.md") = false ∧
    shouldAnalyzeFile ("src/utils/helpers.ts") = true ∧
    rxTest uiComponentsRx ("src/components/ui/button.tsx") = true ∧
    rxTest mainIndexRx ("src/index.ts") = true ∧
    lastExt (lowerStr ("README.md")) = some (".md") ∧
    codeExtensions.contains (".md") = false := by
  exact ⟨by decide, by decide, by decide, by decide, by decide, by decide, by decide, by decide⟩

/-! ### Claim C3 — the three-line sandwich scenario -/

/-- Counterexample to claim C3 as stated: on the scenario input the lines
`const a = 1;` and `const b = 2;` do **not** classify as AI (no rule fires on
them, so their verdict is Human with neutral confidence 1/2), and the
creative/human-signature exemption does **not** fire on `foo_bar_hack();`
(every placeholder token of the exemption is `\b`-delimited, and `foo` sits
between underscores, which are word characters). -/
theorem claim_C3_counterexample :
    ((analyzeCode initState sandwichScenario ("javascript")).1.lineAnalysis.map
        (fun l => (l.isAI, l.confidence))) =
      [(false, 1/2), (false, 1/2), (false, 1/2)] ∧
    isCreativeHumanCode ("foo_bar_hack();") = false := by
  constructor
  · with_unfolding_all rfl
  · with_unfolding_all rfl

/-- Claim C3, amended: on the scenario input all three lines classify Human
(lines 1 and 3 fire no rule at all), and line 2 remains Human after the
contextual smoothing pass — not because the creative-code exemption fires (it
does not: `isCreativeHumanCode` is false on `foo_bar_hack();`), but because
the sandwich premise fails. -/
theorem claim_C3_amended :
    ((analyzeCode initState sandwichScenario ("javascript")).1.lineAnalysis.map
        (fun l => l.isAI)) = [false, false, false] ∧
    ((analyzeCode initState sandwichScenario ("javascript")).1.lineAnalysis.map
        (fun l => l.reasons)) =
      [[("No significant patterns detected - neutral classification")],
       [("No significant patterns detected - neutral classification")],
       [("No significant patterns detected - neutral classification")]] ∧
    isCreativeHumanCode ("foo_bar_hack();") = false := by
  refine ⟨?_, ?_, ?_⟩
  · with_unfolding_all rfl
  · with_unfolding_all rfl
  · with_unfolding_all rfl

/-! ### Claim C1 — the engine is not pure across calls -/

/-- Claim C1 is violated by the code: classifying the very same text with the
very same language tag twice in a row yields different results.  The
`AI_PATTERNS` table is module-level and its regexes carry the `g` flag, so the
successful `test` of the TODO/FIXME rule during the first run leaves its
`lastIndex` at 5; during the second run the rule therefore fails to match, and
the TODO rationale disappears from the verdict. -/
theorem claim_C1_not_deterministic :
    todoRun1.1 ≠ todoRun2.1 ∧
    (todoRun1.1.lineAnalysis.map (fun l => l.reasons)) =
      [[("Contains TODO/FIXME comments indicating human planning"),
        ("Short, concise line suggests human writing")]] ∧
    (todoRun2.1.lineAnalysis.map (fun l => l.reasons)) =
      [[("Short, concise line suggests human writing")]] := by
  refine ⟨?_, ?_, ?_⟩
  · exact of_decide_eq_false (by with_unfolding_all rfl)
  · with_unfolding_all rfl
  · with_unfolding_all rfl

/-! ### Claim C6 — empty filter result fails with NoAnalyzableFiles -/

/-- Claim C6: whenever the gathered file list contains no file passing the
analyzability filter (recognised code extension and no exclusion-pattern match
via `shouldAnalyzeFile`, non-zero size below 1 MiB, and a download url),
`analyzeGitHubRepository` throws the `NoAnalyzableFiles` error instead of
returning a zero-valued `RepositoryAnalysis`. -/
theorem claim_C6_no_analyzable_files (allFiles : List GitHubFile)
    (fetch : String → Option String) (url : String) (lov : Bool × List String)
    (h : allFiles.filter analyzeableFilter = []) :
    (analyzeGitHubRepository allFiles fetch url lov).1 = Except.error noAnalyzableMsg := by
  unfold analyzeGitHubRepository
  rw [h]
  rfl

/-- Witness for C6 at a concrete repository containing only `README.md`. -/
theorem claim_C6_witness :
    [readmeFile].filter analyzeableFilter = [] ∧
    (analyzeGitHubRepository [readmeFile] (fun _ => none) ("u") (false, [])).1 =
      Except.error noAnalyzableMsg := by
  have h : [readmeFile].filter analyzeableFilter = [] := by decide
  exact ⟨h, claim_C6_no_analyzable_files [readmeFile] (fun _ => none) ("u") (false, []) h⟩

/-! ### Claim C5 — progress callback ordering -/

/-- The events of one loop iteration: the progress call comes first, before
the file's fetch and (possible) classification events. -/
theorem processFile_events (fetch : String → Option String) (total i : Nat)
    (f : GitHubFile) (acc : LoopAcc) :
    (processFile fetch total i f acc).1 =
      REvent.progress (i + 1) total f.path :: fileTailEvents fetch f := by
  unfold processFile fileTailEvents
  cases fetch (f.download_url.getD ("")) with
  | none => rfl
  | some content =>
      by_cases h : jsTrim content == ("")
      · simp [h]
      · simp [h]

/-- Claim C5, amended: during the per-file loop the progress callback is
invoked exactly once per analyzable file — **before** that file is fetched and
classified, not after — reporting the file's 1-based position in the filtered
list, the total count, and the file's path; only then do that file's fetch and
classification events follow, and the next file's block starts after them.
(The source calls `onProgress?.(i + 1, total, file.path)` at the top of the
loop body, before `fetchFileContent`.) -/
theorem claim_C5_amended (fetch : String → Option String) (total : Nat) :
    ∀ (files : List GitHubFile) (i : Nat) (acc : LoopAcc),
      (loopGo fetch total files i acc).1 =
        (List.enumFrom i files).flatMap
          (fun p => REvent.progress (p.1 + 1) total p.2.path :: fileTailEvents fetch p.2) := by
  intro files
  induction files with
  | nil => intro i acc; rfl
  | cons f fs ih =>
      intro i acc
      show (processFile fetch total i f acc).1 ++
            (loopGo fetch total fs (i + 1) (processFile fetch total i f acc).2).1 = _
      rw [processFile_events, ih]
      simp [List.enumFrom]

/-- Counterexample to claim C5 as stated: for a repository with the single
analyzable file `src/utils/a.ts` whose fetch succeeds, the full event trace
shows the per-file progress call (`progress 1 1`) happening **before** the
file is fetched and classified, not after — refuting "invoked ... after that
file is fetched and classified". -/
theorem claim_C5_counterexample :
    (analyzeGitHubRepository [cxFile] (fun _ => some ("let x = 1")) ("u") (false, [])).2 =
      [REvent.progress 0 1 ("Fetching repository structure..."),
       REvent.progress 0 1 ("Fetching repository metadata..."),
       REvent.progress 1 1 ("src/utils/a.ts"),
       REvent.fetched ("src/utils/a.ts") true,
       REvent.classified ("src/utils/a.ts")] := by
  with_unfolding_all rfl

/-! ### Claim C4 — the sandwich rule uses immediate array neighbours -/

theorem range'_split (n : Nat) : ∀ (s i : Nat), s ≤ i → i < s + n →
    List.range' s n = List.range' s (i - s) ++ i :: List.range' (i + 1) (s + n - (i + 1)) := by
  induction n with
  | zero => intro s i h1 h2; omega
  | succ m ih =>
      intro s i h1 h2
      rcases Nat.eq_or_lt_of_le h1 with heq | hlt
      · subst heq
        have hz : s - s = 0 := by omega
        have hm : s + (m + 1) - (s + 1) = m := by omega
        rw [hz, hm, List.range'_succ]
        rfl
      · have hrec := ih (s + 1) i hlt (by omega)
        rw [List.range'_succ, hrec]
        have hk : i - s = (i - (s + 1)) + 1 := by omega
        rw [hk, List.range'_succ]
        have hm2 : (s + 1) + m - (i + 1) = s + (m + 1) - (i + 1) := by omega
        rw [hm2]
        rfl

theorem aiAt_eq_some (acc : List LineAnalysis) (j : Nat) (h : aiAt acc j = true) :
    ∃ a, acc.get? j = some a ∧ a.isAI = true := by
  unfold aiAt at h
  cases hg : acc.get? j with
  | none => rw [hg] at h; exact absurd h (by simp)
  | some a => rw [hg] at h; exact ⟨a, rfl, h⟩

theorem sandwichStep_cases (acc : List LineAnalysis) (i : Nat) :
    sandwichStep acc i = acc ∨
    ∃ cur, acc.get? i = some cur ∧ (jsTrim cur.content == ("")) = false ∧
      sandwichStep acc i =
        acc.set i { cur with isAI := true, confidence := max cur.confidence 0.7,
                             reasons := cur.reasons ++ [sandwichMsg] } := by
  unfold sandwichStep
  cases h1 : acc.get? i with
  | none => exact Or.inl rfl
  | some cur =>
      cases h2 : acc.get? (i - 1) with
      | none => exact Or.inl rfl
      | some prev =>
          cases h3 : acc.get? (i + 1) with
          | none => exact Or.inl rfl
          | some next =>
              by_cases hb : jsTrim cur.content == ("")
              · simp [hb]
              · simp only [hb, if_false, Bool.false_eq_true]
                by_cases hc : (!cur.isAI && prev.isAI && next.isAI) = true
                · simp only [hc, if_true]
                  by_cases hd : isCreativeHumanCode cur.content
                  · simp [hd]
                  · refine Or.inr ⟨cur, rfl, by simpa using hb, ?_⟩
                    simp [hd]
                · simp [hc]

theorem sandwichStep_length (acc : List LineAnalysis) (i : Nat) :
    (sandwichStep acc i).length = acc.length := by
  rcases sandwichStep_cases acc i with h | ⟨cur, _, _, h⟩
  · rw [h]
  · rw [h]; simp

theorem sandwichStep_get_other (acc : List LineAnalysis) (i j : Nat) (h : ¬ i = j) :
    (sandwichStep acc i).get? j = acc.get? j := by
  rcases sandwichStep_cases acc i with hs | ⟨cur, _, _, hs⟩
  · rw [hs]
  · rw [hs]; exact get?_set_other acc i j _ h

theorem sandwichStep_aiAt (acc : List LineAnalysis) (i j : Nat)
    (h : aiAt acc j = true) : aiAt (sandwichStep acc i) j = true := by
  by_cases hij : i = j
  · subst hij
    rcases sandwichStep_cases acc i with hs | ⟨cur, hc, _, hs⟩
    · rw [hs]; exact h
    · rw [hs]
      unfold aiAt
      have hlt : i < acc.length := by
        rcases List.get?_eq_some.mp hc with ⟨hl, _⟩
        exact hl
      rw [get?_set_self acc i _ hlt]
  · unfold aiAt
    rw [sandwichStep_get_other acc i j hij]
    exact h

theorem foldl_sandwich_length (idxs : List Nat) : ∀ (acc : List LineAnalysis),
    (idxs.foldl sandwichStep acc).length = acc.length := by
  induction idxs with
  | nil => intro acc; rfl
  | cons x xs ih =>
      intro acc
      show (xs.foldl sandwichStep (sandwichStep acc x)).length = acc.length
      rw [ih (sandwichStep acc x), sandwichStep_length]

theorem foldl_sandwich_get_other (idxs : List Nat) : ∀ (acc : List LineAnalysis) (j : Nat),
    (∀ x ∈ idxs, ¬ x = j) → (idxs.foldl sandwichStep acc).get? j = acc.get? j := by
  induction idxs with
  | nil => intro acc j _; rfl
  | cons x xs ih =>
      intro acc j h
      show (xs.foldl sandwichStep (sandwichStep acc x)).get? j = acc.get? j
      rw [ih (sandwichStep acc x) j (fun y hy => h y (List.mem_cons_of_mem x hy)),
          sandwichStep_get_other acc x j (h x (List.mem_cons_self x xs))]

theorem foldl_sandwich_aiAt (idxs : List Nat) : ∀ (acc : List LineAnalysis) (j : Nat),
    aiAt acc j = true → aiAt (idxs.foldl sandwichStep acc) j = true := by
  induction idxs with
  | nil => intro acc j h; exact h
  | cons x xs ih =>
      intro acc j h
      exact ih (sandwichStep acc x) j (sandwichStep_aiAt acc x j h)

theorem blockStep_fst_cases (st : List LineAnalysis × Nat) (i : Nat) :
    (blockStep st i).1 = st.1 ∨
    ∃ line, st.1.get? i = some line ∧ line.isAI = false ∧
      (jsTrim line.content == ("")) = false ∧
      (blockStep st i).1 =
        st.1.set i { line with isAI := true, confidence := max line.confidence 0.6,
                               reasons := line.reasons ++ [blockMsg] } := by
  unfold blockStep
  cases hgl : st.1.get? i with
  | none => exact Or.inl rfl
  | some line =>
      by_cases hbl : jsTrim line.content == ("")
      · simp [hbl]
      · simp only [hbl, Bool.false_eq_true, if_false]
        by_cases hai : line.isAI = true
        · simp [hai]
        · by_cases h3 : (decide (st.2 ≥ 3) && !isCreativeHumanCode line.content) = true
          · simp only [h3, if_true]
            by_cases h4 : blockLookahead st.1 i = true
            · refine Or.inr ⟨line, rfl, by simpa using hai, by simpa using hbl, ?_⟩
              simp [h4, hai]
            · simp [h4, hai]
          · simp [h3, hai]

theorem blockStep_preserves_ai (st : List LineAnalysis × Nat) (i j : Nat)
    (b : LineAnalysis) (hj : st.1.get? j = some b) (hb : b.isAI = true) :
    (blockStep st i).1.get? j = some b := by
  rcases blockStep_fst_cases st i with h | ⟨line, hgl, hlF, _, h⟩
  · rw [h]; exact hj
  · rw [h]
    by_cases hij : i = j
    · subst hij
      rw [hj] at hgl
      cases hgl
      rw [hb] at hlF
      cases hlF
    · rw [get?_set_other st.1 i j _ hij]
      exact hj

theorem foldl_block_preserves_ai (idxs : List Nat) : ∀ (st : List LineAnalysis × Nat)
    (j : Nat) (b : LineAnalysis), st.1.get? j = some b → b.isAI = true →
    (idxs.foldl blockStep st).1.get? j = some b := by
  induction idxs with
  | nil => intro st j b hj _; exact hj
  | cons x xs ih =>
      intro st j b hj hb
      exact ih (blockStep st x) j b (blockStep_preserves_ai st x j b hj hb) hb

/-- Claim C4, amended: the sandwich rule looks at the **immediate array
neighbours** `lineAnalysis[i-1]` and `lineAnalysis[i+1]`, not at the nearest
non-blank neighbours (an intervening blank line, whose verdict is never AI,
breaks the sandwich).  Under the corrected premise — the line at index `i`
(`0 < i < length - 1`) is non-blank, Human, non-creative, and both immediate
neighbours are AI — the pass flips it to AI, raises its confidence to
`max confidence 0.7 ≥ 0.7`, and appends the sandwich rationale; the
block-extension pass leaves the flipped line untouched. -/
theorem claim_C4_sandwich_amended (ls : List LineAnalysis) (i : Nat)
    (cur prev next : LineAnalysis)
    (h1 : 1 ≤ i) (h2 : i + 1 < ls.length)
    (hcur : ls.get? i = some cur) (hprev : ls.get? (i - 1) = some prev)
    (hnext : ls.get? (i + 1) = some next)
    (hblank : ¬ jsTrim cur.content = "") (hH : cur.isAI = false)
    (hp : prev.isAI = true) (hn : next.isAI = true)
    (hcr : isCreativeHumanCode cur.content = false) :
    (applyContextualAnalysis ls).get? i =
      some { cur with isAI := true, confidence := max cur.confidence 0.7,
                      reasons := cur.reasons ++ [sandwichMsg] } ∧
    (0.7 : ℚ) ≤ max cur.confidence 0.7 := by
  refine ⟨?_, le_max_right _ _⟩
  have hin : i < ls.length := by omega
  have hdecomp : List.range' 1 (ls.length - 2) =
      List.range' 1 (i - 1) ++ i :: List.range' (i + 1) (1 + (ls.length - 2) - (i + 1)) := by
    have := range'_split (ls.length - 2) 1 i h1 (by omega)
    simpa using this
  set acc1 := (List.range' 1 (i - 1)).foldl sandwichStep ls with hacc1
  have len1 : acc1.length = ls.length := foldl_sandwich_length _ ls
  have a_i : acc1.get? i = some cur := by
    rw [hacc1, foldl_sandwich_get_other _ ls i ?_, hcur]
    intro x hx
    have := List.mem_range'_1.mp hx
    omega
  have a_next : acc1.get? (i + 1) = some next := by
    rw [hacc1, foldl_sandwich_get_other _ ls (i + 1) ?_, hnext]
    intro x hx
    have := List.mem_range'_1.mp hx
    omega
  have a_prevAI : aiAt acc1 (i - 1) = true := by
    refine foldl_sandwich_aiAt _ ls (i - 1) ?_
    unfold aiAt
    rw [hprev]
    exact hp
  rcases aiAt_eq_some acc1 (i - 1) a_prevAI with ⟨prev', hprev', hp'⟩
  have hstep : sandwichStep acc1 i =
      acc1.set i { cur with isAI := true, confidence := max cur.confidence 0.7,
                            reasons := cur.reasons ++ [sandwichMsg] } := by
    unfold sandwichStep
    rw [a_i, hprev', a_next]
    simp [hblank, hH, hp', hn, hcr]
  have hpass : (sandwichPass ls).get? i =
      some { cur with isAI := true, confidence := max cur.confidence 0.7,
                      reasons := cur.reasons ++ [sandwichMsg] } := by
    unfold sandwichPass
    rw [hdecomp, List.foldl_append]
    show ((i :: List.range' (i + 1) _).foldl sandwichStep acc1).get? i = _
    show ((List.range' (i + 1) _).foldl sandwichStep (sandwichStep acc1 i)).get? i = _
    rw [foldl_sandwich_get_other _ _ i ?_, hstep, get?_set_self]
    · omega
    · intro x hx
      have := List.mem_range'_1.mp hx
      omega
  unfold applyContextualAnalysis blockPass
  exact foldl_block_preserves_ai _ (sandwichPass ls, 0) i _ hpass rfl

/-- Witness for the amended C4 at a concrete three-line sandwich. -/
theorem claim_C4_sandwich_amended_witness :
    (applyContextualAnalysis [exA1, exH, exA2]).get? 1 =
      some { exH with isAI := true, confidence := max exH.confidence 0.7,
                      reasons := exH.reasons ++ [sandwichMsg] } ∧
    (0.7 : ℚ) ≤ max exH.confidence 0.7 :=
  claim_C4_sandwich_amended [exA1, exH, exA2] 1 exH exA1 exA2
    (by decide) (by decide) rfl rfl rfl (by decide) rfl rfl rfl (by decide)

/-- Counterexample to claim C4 as stated: in the four-line sequence
`[AI, blank, Human, AI]` the nearest **non-blank** neighbours of the Human
line (index 2) are both AI, the line is non-blank and non-creative — yet the
smoothing pass changes nothing at all (in particular the Human line is not
flipped, its confidence is not raised to 0.7, and no sandwich rationale is
appended), because the source compares the *immediate* neighbours and the
blank line at index 1 has `isAI = false`.  Blank lines do break adjacency. -/
theorem claim_C4_counterexample :
    applyContextualAnalysis [exA1, exBlank, exH, exA2] = [exA1, exBlank, exH, exA2] ∧
    jsTrim exBlank.content = "" ∧
    exA1.isAI = true ∧ exA2.isAI = true ∧ exH.isAI = false ∧
    ¬ jsTrim exH.content = "" ∧
    isCreativeHumanCode exH.content = false := by
  refine ⟨?_, by decide, rfl, rfl, rfl, by decide, by decide⟩
  with_unfolding_all rfl

/-! ### Claim C10 — the smoother only strengthens verdicts -/

theorem lineEvolves_refl (a : LineAnalysis) : lineEvolves a a :=
  ⟨rfl, le_refl _, fun h => h, ⟨[], by simp⟩⟩

theorem lineEvolves_trans {a b c : LineAnalysis}
    (h1 : lineEvolves a b) (h2 : lineEvolves b c) : lineEvolves a c := by
  obtain ⟨hc1, hq1, hi1, t1, ht1⟩ := h1
  obtain ⟨hc2, hq2, hi2, t2, ht2⟩ := h2
  exact ⟨hc2.trans hc1, hq1.trans hq2, fun h => hi2 (hi1 h),
         ⟨t1 ++ t2, by rw [ht2, ht1, List.append_assoc]⟩⟩

theorem forallTwo_refl (l : List LineAnalysis) : List.Forall₂ lineEvolves l l :=
  List.forall₂_same.mpr (fun a _ => lineEvolves_refl a)

theorem forallTwo_trans : ∀ {l1 l2 l3 : List LineAnalysis},
    List.Forall₂ lineEvolves l1 l2 → List.Forall₂ lineEvolves l2 l3 →
    List.Forall₂ lineEvolves l1 l3 := by
  intro l1 l2 l3 h12
  induction h12 generalizing l3 with
  | nil => intro h23; cases h23; exact List.Forall₂.nil
  | cons hab h ih =>
      intro h23
      cases h23 with
      | cons hbc h' => exact List.Forall₂.cons (lineEvolves_trans hab hbc) (ih h')

theorem forallTwo_set : ∀ (l : List LineAnalysis) (i : Nat) (cur b : LineAnalysis),
    l.get? i = some cur → lineEvolves cur b → List.Forall₂ lineEvolves l (l.set i b) := by
  intro l
  induction l with
  | nil => intro i cur b h _; cases h
  | cons x xs ih =>
      intro i cur b h he
      cases i with
      | zero =>
          cases h
          exact List.Forall₂.cons he (forallTwo_refl xs)
      | succ i' =>
          exact List.Forall₂.cons (lineEvolves_refl x) (ih i' cur b h he)

theorem sandwichStep_evolves (acc : List LineAnalysis) (i : Nat) :
    List.Forall₂ lineEvolves acc (sandwichStep acc i) := by
  rcases sandwichStep_cases acc i with h | ⟨cur, hget, _, h⟩
  · rw [h]; exact forallTwo_refl acc
  · rw [h]
    refine forallTwo_set acc i cur _ hget ⟨rfl, le_max_left _ _, fun _ => rfl, ⟨[sandwichMsg], rfl⟩⟩

theorem blockStep_evolves (st : List LineAnalysis × Nat) (i : Nat) :
    List.Forall₂ lineEvolves st.1 (blockStep st i).1 := by
  rcases blockStep_fst_cases st i with h | ⟨line, hget, _, _, h⟩
  · rw [h]; exact forallTwo_refl st.1
  · rw [h]
    refine forallTwo_set st.1 i line _ hget ⟨rfl, le_max_left _ _, fun _ => rfl, ⟨[blockMsg], rfl⟩⟩

theorem foldl_sandwich_evolves (idxs : List Nat) : ∀ (acc : List LineAnalysis),
    List.Forall₂ lineEvolves acc (idxs.foldl sandwichStep acc) := by
  induction idxs with
  | nil => intro acc; exact forallTwo_refl acc
  | cons x xs ih =>
      intro acc
      exact forallTwo_trans (sandwichStep_evolves acc x) (ih (sandwichStep acc x))

theorem foldl_block_evolves (idxs : List Nat) : ∀ (st : List LineAnalysis × Nat),
    List.Forall₂ lineEvolves st.1 ((idxs.foldl blockStep st)).1 := by
  induction idxs with
  | nil => intro st; exact forallTwo_refl st.1
  | cons x xs ih =>
      intro st
      exact forallTwo_trans (blockStep_evolves st x) (ih (blockStep st x))

theorem countP_le_of_evolves (p : LineAnalysis → Bool)
    (hp : ∀ a b, lineEvolves a b → p a = true → p b = true) :
    ∀ {l l' : List LineAnalysis}, List.Forall₂ lineEvolves l l' →
      l.countP p ≤ l'.countP p := by
  intro l l' h
  induction h with
  | nil => exact le_refl 0
  | @cons a b l₁ l₂ hab h ih =>
      rw [List.countP_cons, List.countP_cons]
      by_cases hpa : p a = true
      · rw [hpa, hp a b hab hpa]
        omega
      · have h0 : (if p a = true then 1 else 0) = 0 := by simp [hpa]
        rw [h0]
        have hle : (if p b = true then 1 else 0) ≤ 1 := by
          by_cases hpb : p b = true
          · simp [hpb]
          · simp [hpb]
        omega

/-- Claim C10: the contextual smoothing pass only strengthens verdicts: every
line's content is unchanged, its confidence is never lowered, its `isAI` flag
is only ever turned from Human to AI (never back), and its rationale list is
only appended to (never shortened or reordered).  Consequently the number of
AI-classified non-blank lines never decreases. -/
theorem claim_C10_smoothing_monotone (ls : List LineAnalysis) :
    List.Forall₂ lineEvolves ls (applyContextualAnalysis ls) ∧
    ls.countP (fun l => !(jsTrim l.content == ("")) && l.isAI) ≤
      (applyContextualAnalysis ls).countP (fun l => !(jsTrim l.content == ("")) && l.isAI) := by
  have hev : List.Forall₂ lineEvolves ls (applyContextualAnalysis ls) := by
    unfold applyContextualAnalysis blockPass sandwichPass
    exact forallTwo_trans
      (foldl_sandwich_evolves _ ls)
      (foldl_block_evolves _ (((List.range' 1 (ls.length - 2)).foldl sandwichStep ls), 0))
  refine ⟨hev, countP_le_of_evolves _ ?_ hev⟩
  intro a b hab hpa
  obtain ⟨hc, _, hi, _⟩ := hab
  simp only [Bool.and_eq_true, Bool.not_eq_true'] at hpa ⊢
  exact ⟨by rw [hc]; exact hpa.1, hi hpa.2⟩

/-! ### Claim C8 — confidence bounds and blank-line neutrality -/

theorem clampQ_bounds (x : ℚ) :
    (0.1 : ℚ) ≤ clampQ x 0.1 0.95 ∧ clampQ x 0.1 0.95 ≤ 0.95 := by
  unfold clampQ
  exact ⟨le_min (le_max_right x 0.1) (by norm_num), min_le_right _ _⟩

theorem analyzeLine_confOk (st : RxState) (line : String) (n : Nat) (lang : String) :
    confOk (analyzeLine st line n lang).1 := by
  unfold analyzeLine
  by_cases h : jsTrim line == ("")
  · rw [if_pos h]
    refine ⟨fun _ => ⟨rfl, rfl⟩, fun hne => absurd ?_ hne⟩
    exact eq_of_beq h
  · rw [if_neg h]
    refine ⟨fun hbl => absurd hbl ?_, fun _ => clampQ_bounds _⟩
    intro hq
    exact h (beq_iff_eq.mpr hq)

theorem analyzeLinesGo_confOk (lang : String) (score : ℚ) :
    ∀ (lines : List String) (i : Nat) (st : RxState) l,
      l ∈ (analyzeLinesGo lang score lines i st).1 → confOk l := by
  intro lines
  induction lines with
  | nil => intro i st l hl; cases hl
  | cons x xs ih =>
      intro i st l hl
      rcases List.mem_cons.mp hl with he | hm
      · have hla := analyzeLine_confOk st x (i + 1) lang
        rw [he]
        by_cases hsc : score > 0.5
        · rw [if_pos hsc]
          by_cases hai : (analyzeLine st x (i + 1) lang).1.isAI = true
          · rw [if_pos hai]
            refine ⟨fun hbl => absurd (hla.1 hbl).2 (by simp [hai]), fun hnb => ?_⟩
            have hb := hla.2 hnb
            constructor
            · refine le_min ?_ (by norm_num)
              have := hb.1
              linarith
            · exact min_le_right _ _
          · rw [if_neg hai]
            exact hla
        · rw [if_neg hsc]
          exact hla
      · exact ih (i + 1) _ l hm

theorem sandwichStep_confOk (acc : List LineAnalysis) (i : Nat)
    (h : ∀ l ∈ acc, confOk l) : ∀ l ∈ sandwichStep acc i, confOk l := by
  rcases sandwichStep_cases acc i with hs | ⟨cur, hget, hnb, hs⟩
  · rw [hs]; exact h
  · rw [hs]
    intro l hl
    rcases List.mem_or_eq_of_mem_set hl with hm | he
    · exact h l hm
    · subst he
      have hcur := h cur (List.get?_mem hget)
      have hne : jsTrim cur.content ≠ "" := beq_eq_false_iff_ne.mp hnb
      refine ⟨fun hbl => absurd hbl hne, fun _ => ?_⟩
      have hb := hcur.2 hne
      exact ⟨le_trans (by norm_num) (le_max_right cur.confidence 0.7),
             max_le hb.2 (by norm_num)⟩

theorem blockStep_confOk (st : List LineAnalysis × Nat) (i : Nat)
    (h : ∀ l ∈ st.1, confOk l) : ∀ l ∈ (blockStep st i).1, confOk l := by
  rcases blockStep_fst_cases st i with hs | ⟨line, hget, _, hnb, hs⟩
  · rw [hs]; exact h
  · rw [hs]
    intro l hl
    rcases List.mem_or_eq_of_mem_set hl with hm | he
    · exact h l hm
    · subst he
      have hcur := h line (List.get?_mem hget)
      have hne : jsTrim line.content ≠ "" := beq_eq_false_iff_ne.mp hnb
      refine ⟨fun hbl => absurd hbl hne, fun _ => ?_⟩
      have hb := hcur.2 hne
      exact ⟨le_trans (by norm_num) (le_max_right line.confidence 0.6),
             max_le hb.2 (by norm_num)⟩

theorem foldl_sandwich_confOk (idxs : List Nat) : ∀ (acc : List LineAnalysis),
    (∀ l ∈ acc, confOk l) → ∀ l ∈ idxs.foldl sandwichStep acc, confOk l := by
  induction idxs with
  | nil => intro acc h; exact h
  | cons x xs ih =>
      intro acc h
      exact ih (sandwichStep acc x) (sandwichStep_confOk acc x h)

theorem foldl_block_confOk (idxs : List Nat) : ∀ (st : List LineAnalysis × Nat),
    (∀ l ∈ st.1, confOk l) → ∀ l ∈ (idxs.foldl blockStep st).1, confOk l := by
  induction idxs with
  | nil => intro st h; exact h
  | cons x xs ih =>
      intro st h
      exact ih (blockStep st x) (blockStep_confOk st x h)

/-- Claim C8: in the final output of classification, every non-blank line's
confidence lies in `[0.1, 0.95]` (this survives per-line scoring, the
structural nudge and both smoothing passes); every blank line carries the
neutral verdict (confidence `0.5`, `isAI = false`); and blank lines are
excluded from the statistics (`totalLines` counts only the non-blank
verdicts). -/
theorem claim_C8_confidence_bounds (st : RxState) (code lang : String) :
    (∀ l ∈ (analyzeCode st code lang).1.lineAnalysis,
        (jsTrim l.content = "" → l.confidence = 0.5 ∧ l.isAI = false) ∧
        (jsTrim l.content ≠ "" → (0.1 : ℚ) ≤ l.confidence ∧ l.confidence ≤ 0.95)) ∧
    (analyzeCode st code lang).1.totalLines =
      ((analyzeCode st code lang).1.lineAnalysis.filter
        (fun l => !(jsTrim l.content == ("")))).length := by
  constructor
  · intro l hl
    have h0 : ∀ l' ∈ (analyzeLinesGo lang (analyzeCodeStructure code) (splitLines code) 0 st).1,
        confOk l' :=
      fun l' hl' => analyzeLinesGo_confOk lang _ (splitLines code) 0 st l' hl'
    have h1 : ∀ l' ∈ sandwichPass
        (analyzeLinesGo lang (analyzeCodeStructure code) (splitLines code) 0 st).1, confOk l' := by
      unfold sandwichPass
      exact foldl_sandwich_confOk _ _ h0
    have h2 : ∀ l' ∈ applyContextualAnalysis
        (analyzeLinesGo lang (analyzeCodeStructure code) (splitLines code) 0 st).1, confOk l' := by
      unfold applyContextualAnalysis blockPass
      exact foldl_block_confOk _ (_, 0) h1
    exact h2 l hl
  · rfl

/-- Witness for C8 at the one-line snippet `"a"`. -/
theorem claim_C8_witness :
    (0.1 : ℚ) ≤ wLine8.confidence ∧ wLine8.confidence ≤ 0.95 := by
  have hla : (analyzeCode initState ("a") ("text")).1.lineAnalysis = [wLine8] := by
    with_unfolding_all rfl
  have h := (claim_C8_confidence_bounds initState ("a") ("text")).1 wLine8
    (by rw [hla]; exact List.mem_singleton_self _)
  exact h.2 (by decide)

/-! ### Claims C7 and C2 — statistics invariants and confidence aggregation -/

theorem analyzeCode_core (st : RxState) (code lang : String) :
    (analyzeCode st code lang).1.aiLines ≤ (analyzeCode st code lang).1.totalLines ∧
    (analyzeCode st code lang).1.aiLines + (analyzeCode st code lang).1.humanLines =
      (analyzeCode st code lang).1.totalLines := by
  have hle : (analyzeCode st code lang).1.aiLines ≤ (analyzeCode st code lang).1.totalLines :=
    List.length_filter_le _ _
  exact ⟨hle, Nat.add_sub_cancel' hle⟩

theorem pctQ_nonneg_le (a t : Nat) (h : a ≤ t) :
    (0:ℚ) ≤ (if t > 0 then ((a:ℚ)/(t:ℚ)) * 100 else 0) ∧
    (if t > 0 then ((a:ℚ)/(t:ℚ)) * 100 else 0) ≤ 100 := by
  by_cases ht : t > 0
  · rw [if_pos ht]
    have htq : (0:ℚ) < t := by exact_mod_cast ht
    have hdiv : (a:ℚ)/t ≤ 1 := by
      rw [div_le_one htq]
      exact_mod_cast h
    have hnn : (0:ℚ) ≤ (a:ℚ)/t := by positivity
    constructor
    · linarith
    · linarith
  · rw [if_neg ht]
    norm_num

theorem pctQ_sum (a b t : Nat) (hab : a + b = t) (ht : 0 < t) :
    ((a:ℚ)/(t:ℚ)) * 100 + ((b:ℚ)/(t:ℚ)) * 100 = 100 := by
  have htq : (t:ℚ) ≠ 0 := by
    have : (0:ℚ) < t := by exact_mod_cast ht
    linarith
  have habq : (a:ℚ) + (b:ℚ) = (t:ℚ) := by exact_mod_cast hab
  field_simp
  linarith

theorem natSum_add_of (D : List FileAnalysis)
    (h : ∀ fa ∈ D, fa.analysis.aiLines + fa.analysis.humanLines = fa.analysis.totalLines) :
    (D.map (fun fa => fa.analysis.aiLines)).sum +
      (D.map (fun fa => fa.analysis.humanLines)).sum =
      (D.map (fun fa => fa.analysis.totalLines)).sum := by
  induction D with
  | nil => rfl
  | cons fa fs ih =>
      simp only [List.map_cons, List.sum_cons]
      have h1 := h fa (List.mem_cons_self fa fs)
      have h2 := ih (fun x hx => h x (List.mem_cons_of_mem fa hx))
      omega

theorem natSum_le_of (D : List FileAnalysis)
    (h : ∀ fa ∈ D, fa.analysis.aiLines ≤ fa.analysis.totalLines) :
    (D.map (fun fa => fa.analysis.aiLines)).sum ≤
      (D.map (fun fa => fa.analysis.totalLines)).sum := by
  induction D with
  | nil => exact le_refl _
  | cons fa fs ih =>
      simp only [List.map_cons, List.sum_cons]
      have h1 := h fa (List.mem_cons_self fa fs)
      have h2 := ih (fun x hx => h x (List.mem_cons_of_mem fa hx))
      omega

theorem processFile_acc (fetch : String → Option String) (total i : Nat)
    (f : GitHubFile) (acc : LoopAcc) :
    (processFile fetch total i f acc).2 = acc ∨
    ∃ (fa : FileAnalysis) (st' : RxState),
      (∃ st c l, fa.analysis = (analyzeCode st c l).1) ∧
      (processFile fetch total i f acc).2 =
        { fileAnalyses := acc.fileAnalyses ++ [fa],
          totalLines := acc.totalLines + fa.analysis.totalLines,
          totalAiLines := acc.totalAiLines + fa.analysis.aiLines,
          totalHumanLines := acc.totalHumanLines + fa.analysis.humanLines,
          totalConfidence := acc.totalConfidence + fa.analysis.overallConfidence,
          analyzedCount := acc.analyzedCount + 1,
          st := st' } := by
  unfold processFile
  cases hf : fetch (f.download_url.getD ("")) with
  | none => exact Or.inl rfl
  | some content =>
      dsimp only
      by_cases hb : jsTrim content == ("")
      · rw [if_pos hb]
        exact Or.inl rfl
      · rw [if_neg hb]
        refine Or.inr ⟨{ path := f.path, language := getLanguageFromPath f.path,
                         analysis := (analyzeCode acc.st content (getLanguageFromPath f.path)).1,
                         size := f.size },
                       (analyzeCode acc.st content (getLanguageFromPath f.path)).2,
                       ⟨acc.st, content, getLanguageFromPath f.path, rfl⟩, rfl⟩

theorem loopGo_acc_spec (fetch : String → Option String) (total : Nat) :
    ∀ (files : List GitHubFile) (i : Nat) (acc : LoopAcc),
      ∃ D : List FileAnalysis,
        (loopGo fetch total files i acc).2.fileAnalyses = acc.fileAnalyses ++ D ∧
        (loopGo fetch total files i acc).2.totalLines =
          acc.totalLines + (D.map (fun fa => fa.analysis.totalLines)).sum ∧
        (loopGo fetch total files i acc).2.totalAiLines =
          acc.totalAiLines + (D.map (fun fa => fa.analysis.aiLines)).sum ∧
        (loopGo fetch total files i acc).2.totalHumanLines =
          acc.totalHumanLines + (D.map (fun fa => fa.analysis.humanLines)).sum ∧
        (loopGo fetch total files i acc).2.totalConfidence =
          acc.totalConfidence + (D.map (fun fa => fa.analysis.overallConfidence)).sum ∧
        (loopGo fetch total files i acc).2.analyzedCount = acc.analyzedCount + D.length ∧
        ∀ fa ∈ D, ∃ st c l, fa.analysis = (analyzeCode st c l).1 := by
  intro files
  induction files with
  | nil =>
      intro i acc
      exact ⟨[], by simp [loopGo], by simp [loopGo], by simp [loopGo], by simp [loopGo],
             by simp [loopGo], by simp [loopGo],
             fun fa h => absurd h (List.not_mem_nil fa)⟩
  | cons f fs ih =>
      intro i acc
      have hgo : (loopGo fetch total (f :: fs) i acc).2 =
          (loopGo fetch total fs (i + 1) (processFile fetch total i f acc).2).2 := rfl
      obtain ⟨D, h1, h2, h3, h4, h5, h6, h7⟩ := ih (i + 1) (processFile fetch total i f acc).2
      rcases processFile_acc fetch total i f acc with hp | ⟨fa, st', hfa, hp⟩
      · rw [hp] at h1 h2 h3 h4 h5 h6 hgo
        exact ⟨D, by rw [hgo]; exact h1, by rw [hgo]; exact h2, by rw [hgo]; exact h3,
               by rw [hgo]; exact h4, by rw [hgo]; exact h5, by rw [hgo]; exact h6, h7⟩
      · rw [hp] at h1 h2 h3 h4 h5 h6 hgo
        refine ⟨fa :: D, ?_, ?_, ?_, ?_, ?_, ?_, ?_⟩
        · rw [hgo, h1]
          simp
        · rw [hgo, h2]
          simp only [List.map_cons, List.sum_cons]
          omega
        · rw [hgo, h3]
          simp only [List.map_cons, List.sum_cons]
          omega
        · rw [hgo, h4]
          simp only [List.map_cons, List.sum_cons]
          omega
        · rw [hgo, h5]
          simp only [List.map_cons, List.sum_cons]
          ring
        · rw [hgo, h6]
          simp only [List.length_cons]
          omega
        · intro x hx
          rcases List.mem_cons.mp hx with he | hm
          · rw [he]; exact hfa
          · exact h7 x hm

theorem analyzeGitHubRepository_ok_spec (allFiles : List GitHubFile)
    (fetch : String → Option String) (url : String) (lov : Bool × List String)
    (r : RepositoryAnalysis)
    (hok : (analyzeGitHubRepository allFiles fetch url lov).1 = Except.ok r) :
    ∃ D : List FileAnalysis,
      r.files = D ∧
      r.overallStats.totalLines = (D.map (fun fa => fa.analysis.totalLines)).sum ∧
      r.overallStats.aiLines = (D.map (fun fa => fa.analysis.aiLines)).sum ∧
      r.overallStats.humanLines = (D.map (fun fa => fa.analysis.humanLines)).sum ∧
      r.overallStats.aiPercentage = (if r.overallStats.totalLines > 0 then
        ((r.overallStats.aiLines : ℚ) / (r.overallStats.totalLines : ℚ)) * 100 else 0) ∧
      r.overallStats.humanPercentage = (if r.overallStats.totalLines > 0 then
        ((r.overallStats.humanLines : ℚ) / (r.overallStats.totalLines : ℚ)) * 100 else 0) ∧
      r.overallStats.overallConfidence = (if D.length > 0 then
        ((D.map (fun fa => fa.analysis.overallConfidence)).sum) / (D.length : ℚ) else 0) ∧
      ∀ fa ∈ D, ∃ st c l, fa.analysis = (analyzeCode st c l).1 := by
  by_cases h0 : (allFiles.filter analyzeableFilter).length = 0
  · exfalso
    unfold analyzeGitHubRepository at hok
    rw [if_pos h0] at hok
    exact Except.noConfusion hok
  · unfold analyzeGitHubRepository at hok
    rw [if_neg h0] at hok
    have hr := Except.ok.inj hok
    obtain ⟨D, hD1, hD2, hD3, hD4, hD5, hD6, hD7⟩ :=
      loopGo_acc_spec fetch (allFiles.filter analyzeableFilter).length
        (allFiles.filter analyzeableFilter) 0 initAcc
    rw [show initAcc.fileAnalyses = [] from rfl, List.nil_append] at hD1
    rw [show initAcc.totalLines = 0 from rfl, Nat.zero_add] at hD2
    rw [show initAcc.totalAiLines = 0 from rfl, Nat.zero_add] at hD3
    rw [show initAcc.totalHumanLines = 0 from rfl, Nat.zero_add] at hD4
    rw [show initAcc.totalConfidence = (0:ℚ) from rfl, zero_add] at hD5
    rw [show initAcc.analyzedCount = 0 from rfl, Nat.zero_add] at hD6
    refine ⟨D, ?_, ?_, ?_, ?_, ?_, ?_, ?_, hD7⟩
    · rw [← hr]; exact hD1
    · rw [← hr]
      simp only [repoOverallStats]
      exact hD2
    · rw [← hr]
      simp only [repoOverallStats]
      exact hD3
    · rw [← hr]
      simp only [repoOverallStats]
      exact hD4
    · rw [← hr]
      simp only [repoOverallStats]
    · rw [← hr]
      simp only [repoOverallStats]
    · rw [← hr]
      simp only [repoOverallStats]
      rw [hD5, hD6]

set_option maxHeartbeats 1600000 in
/-- Claim C7: for every file-level result and for every repository-level
aggregate, `aiLines + humanLines = totalLines`, both percentages lie in
`[0, 100]`, they sum to `100` whenever `totalLines > 0`, and both are `0`
when `totalLines = 0`. -/
theorem claim_C7_stats_invariants :
    (∀ (st : RxState) (code lang : String),
      (analyzeCode st code lang).1.aiLines + (analyzeCode st code lang).1.humanLines =
        (analyzeCode st code lang).1.totalLines ∧
      ((0:ℚ) ≤ (analyzeCode st code lang).1.aiPercentage ∧
        (analyzeCode st code lang).1.aiPercentage ≤ 100) ∧
      ((0:ℚ) ≤ (analyzeCode st code lang).1.humanPercentage ∧
        (analyzeCode st code lang).1.humanPercentage ≤ 100) ∧
      (0 < (analyzeCode st code lang).1.totalLines →
        (analyzeCode st code lang).1.aiPercentage +
          (analyzeCode st code lang).1.humanPercentage = 100) ∧
      ((analyzeCode st code lang).1.totalLines = 0 →
        (analyzeCode st code lang).1.aiPercentage = 0 ∧
          (analyzeCode st code lang).1.humanPercentage = 0)) ∧
    (∀ (allFiles : List GitHubFile) (fetch : String → Option String) (url : String)
        (lov : Bool × List String) (r : RepositoryAnalysis),
      (analyzeGitHubRepository allFiles fetch url lov).1 = Except.ok r →
      r.overallStats.aiLines + r.overallStats.humanLines = r.overallStats.totalLines ∧
      ((0:ℚ) ≤ r.overallStats.aiPercentage ∧ r.overallStats.aiPercentage ≤ 100) ∧
      ((0:ℚ) ≤ r.overallStats.humanPercentage ∧ r.overallStats.humanPercentage ≤ 100) ∧
      (0 < r.overallStats.totalLines →
        r.overallStats.aiPercentage + r.overallStats.humanPercentage = 100) ∧
      (r.overallStats.totalLines = 0 →
        r.overallStats.aiPercentage = 0 ∧ r.overallStats.humanPercentage = 0)) := by
  constructor
  · intro st code lang
    obtain ⟨hle, hsum⟩ := analyzeCode_core st code lang
    have hhle : (analyzeCode st code lang).1.humanLines ≤
        (analyzeCode st code lang).1.totalLines := by omega
    have hap : (analyzeCode st code lang).1.aiPercentage =
        (if (analyzeCode st code lang).1.totalLines > 0 then
          (((analyzeCode st code lang).1.aiLines : ℚ) /
            ((analyzeCode st code lang).1.totalLines : ℚ)) * 100 else 0) := rfl
    have hhp : (analyzeCode st code lang).1.humanPercentage =
        (if (analyzeCode st code lang).1.totalLines > 0 then
          (((analyzeCode st code lang).1.humanLines : ℚ) /
            ((analyzeCode st code lang).1.totalLines : ℚ)) * 100 else 0) := rfl
    refine ⟨hsum, ?_, ?_, ?_, ?_⟩
    · rw [hap]; exact pctQ_nonneg_le _ _ hle
    · rw [hhp]; exact pctQ_nonneg_le _ _ hhle
    · intro ht
      rw [hap, hhp, if_pos ht, if_pos ht]
      exact pctQ_sum _ _ _ hsum ht
    · intro ht0
      have hneg : ¬ ((analyzeCode st code lang).1.totalLines > 0) := by omega
      rw [hap, hhp, if_neg hneg, if_neg hneg]
      exact ⟨rfl, rfl⟩
  · intro allFiles fetch url lov r hok
    obtain ⟨D, hf, ht, ha, hh, hap, hhp, _, hD⟩ :=
      analyzeGitHubRepository_ok_spec allFiles fetch url lov r hok
    have hfa_sum : ∀ fa ∈ D, fa.analysis.aiLines + fa.analysis.humanLines =
        fa.analysis.totalLines := by
      intro fa hfa
      obtain ⟨st, c, l, he⟩ := hD fa hfa
      rw [he]
      exact (analyzeCode_core st c l).2
    have hfa_le : ∀ fa ∈ D, fa.analysis.aiLines ≤ fa.analysis.totalLines := by
      intro fa hfa
      obtain ⟨st, c, l, he⟩ := hD fa hfa
      rw [he]
      exact (analyzeCode_core st c l).1
    have hsum : r.overallStats.aiLines + r.overallStats.humanLines =
        r.overallStats.totalLines := by
      rw [ha, hh, ht]
      exact natSum_add_of D hfa_sum
    have hle : r.overallStats.aiLines ≤ r.overallStats.totalLines := by
      rw [ha, ht]
      exact natSum_le_of D hfa_le
    have hhle : r.overallStats.humanLines ≤ r.overallStats.totalLines := by omega
    refine ⟨hsum, ?_, ?_, ?_, ?_⟩
    · rw [hap]; exact pctQ_nonneg_le _ _ hle
    · rw [hhp]; exact pctQ_nonneg_le _ _ hhle
    · intro htpos
      rw [hap, hhp, if_pos htpos, if_pos htpos]
      exact pctQ_sum _ _ _ hsum htpos
    · intro ht0
      have hneg : ¬ (r.overallStats.totalLines > 0) := by omega
      rw [hap, hhp, if_neg hneg, if_neg hneg]
      exact ⟨rfl, rfl⟩

/-- The one-file repository with a failing download evaluates to
`cxFailedRepo` (helper for the witnesses and the C2 counterexample). -/
theorem cxFailedRepo_ok :
    (analyzeGitHubRepository [cxFile] (fun _ => none) ("u") (false, [])).1 =
      Except.ok cxFailedRepo := by
  with_unfolding_all rfl

/-- Witness for C7: a concrete snippet with one non-blank line, and a concrete
repository result. -/
theorem claim_C7_witness :
    ((analyzeCode initState ("a") ("text")).1.aiLines +
      (analyzeCode initState ("a") ("text")).1.humanLines =
      (analyzeCode initState ("a") ("text")).1.totalLines) ∧
    ((analyzeCode initState ("a") ("text")).1.aiPercentage +
      (analyzeCode initState ("a") ("text")).1.humanPercentage = 100) ∧
    cxFailedRepo.overallStats.aiLines + cxFailedRepo.overallStats.humanLines =
      cxFailedRepo.overallStats.totalLines ∧
    (cxFailedRepo.overallStats.aiPercentage = 0 ∧
      cxFailedRepo.overallStats.humanPercentage = 0) := by
  have h1 := claim_C7_stats_invariants.1 initState ("a") ("text")
  have h2 := claim_C7_stats_invariants.2 [cxFile] (fun _ => none) ("u") (false, [])
    cxFailedRepo cxFailedRepo_ok
  have ht : 0 < (analyzeCode initState ("a") ("text")).1.totalLines := by
    have he : (analyzeCode initState ("a") ("text")).1.totalLines = 1 := by
      with_unfolding_all rfl
    omega
  exact ⟨h1.1, h1.2.2.2.1 ht, h2.1, h2.2.2.2.2 rfl⟩

/-- Counterexample to claim C2 as stated: for a repository whose single
analyzable file fails to download, the returned `overallConfidence` is `0`,
not `0.5` (the repository-level default in the source is
`analyzedCount > 0 ? totalConfidence / analyzedCount : 0`). -/
theorem claim_C2_counterexample :
    (analyzeGitHubRepository [cxFile] (fun _ => none) ("u") (false, [])).1 =
      Except.ok cxFailedRepo ∧
    cxFailedRepo.overallStats.overallConfidence = 0 ∧
    (0 : ℚ) ≠ 0.5 := by
  refine ⟨cxFailedRepo_ok, rfl, by norm_num⟩

set_option maxHeartbeats 1600000 in
/-- Claim C2, amended: at file level `overallConfidence` is the unweighted
mean of the per-line confidences over the non-blank lines, defaulting to `0.5`
when there are none; at repository level it is the unweighted mean of the
per-file `overallConfidence` values over the files that were successfully
fetched and classified — not a mean over lines — and it defaults to `0` (not
`0.5`) when no file was successfully analysed. -/
theorem claim_C2_overall_confidence :
    (∀ (st : RxState) (code lang : String),
      (((analyzeCode st code lang).1.lineAnalysis.filter
          (fun l => !(jsTrim l.content == ("")))) = [] →
        (analyzeCode st code lang).1.overallConfidence = 0.5) ∧
      (((analyzeCode st code lang).1.lineAnalysis.filter
          (fun l => !(jsTrim l.content == ("")))) ≠ [] →
        (analyzeCode st code lang).1.overallConfidence =
          ((((analyzeCode st code lang).1.lineAnalysis.filter
              (fun l => !(jsTrim l.content == ("")))).map (fun l => l.confidence)).sum) /
            ((((analyzeCode st code lang).1.lineAnalysis.filter
              (fun l => !(jsTrim l.content == ("")))).length : Nat) : ℚ))) ∧
    (∀ (allFiles : List GitHubFile) (fetch : String → Option String) (url : String)
        (lov : Bool × List String) (r : RepositoryAnalysis),
      (analyzeGitHubRepository allFiles fetch url lov).1 = Except.ok r →
      (r.files = [] → r.overallStats.overallConfidence = 0) ∧
      (r.files ≠ [] → r.overallStats.overallConfidence =
        ((r.files.map (fun fa => fa.analysis.overallConfidence)).sum) /
          (r.files.length : ℚ))) := by
  constructor
  · intro st code lang
    have hoc : (analyzeCode st code lang).1.overallConfidence =
        (if ((analyzeCode st code lang).1.lineAnalysis.filter
            (fun l => !(jsTrim l.content == ("")))).length > 0 then
          ((((analyzeCode st code lang).1.lineAnalysis.filter
              (fun l => !(jsTrim l.content == ("")))).map (fun l => l.confidence)).sum) /
            ((((analyzeCode st code lang).1.lineAnalysis.filter
              (fun l => !(jsTrim l.content == ("")))).length : Nat) : ℚ)
        else 0.5) := rfl
    constructor
    · intro hN
      rw [hoc, hN]
      simp
    · intro hN
      have hpos : 0 < ((analyzeCode st code lang).1.lineAnalysis.filter
          (fun l => !(jsTrim l.content == ("")))).length := List.length_pos.mpr hN
      rw [hoc, if_pos hpos]
  · intro allFiles fetch url lov r hok
    obtain ⟨D, hf, _, _, _, _, _, hoc, _⟩ :=
      analyzeGitHubRepository_ok_spec allFiles fetch url lov r hok
    constructor
    · intro hfe
      rw [hfe] at hf
      rw [hoc, ← hf]
      simp
    · intro hfe
      have hD : D ≠ [] := by rw [← hf]; exact hfe
      have hpos : 0 < D.length := List.length_pos.mpr hD
      rw [hoc, if_pos hpos, hf]

/-- Witness for the amended C2: a snippet with no non-blank line yields the
file-level default `0.5`; the failed-download repository yields the
repository-level default `0`. -/
theorem claim_C2_witness :
    (analyzeCode initState ("") ("text")).1.overallConfidence = 0.5 ∧
    cxFailedRepo.overallStats.overallConfidence = 0 := by
  have h1 := (claim_C2_overall_confidence.1 initState ("") ("text")).1 ?_
  · have h2 := (claim_C2_overall_confidence.2 [cxFile] (fun _ => none) ("u") (false, [])
      cxFailedRepo cxFailedRepo_ok).1 rfl
    exact ⟨h1, h2⟩
  · with_unfolding_all rfl
